import Mathlib

/-!
Akamai Terraform provider: the appsec rule resource.

A shallow embedding of `pkg/providers/appsec/resource_akamai_appsec_rule.go`
(the four CRUD callbacks of the rule resource) together with the pieces of the
Go standard library and of the provider it relies on, followed by theorems
about the composite identifier and about the sequence of facade calls each
callback issues.

Conventions.
* A Go `string` is a Lean `String`; the codec functions work on its list of
  characters.  The separator `:` is a one-byte character, so splitting the
  character list agrees with splitting the byte string.
* A Go `int` is a Lean `Int` inside the 64-bit range `InIntRange`.
* A Go `(value, error)` lookup result is a pair `α × Option GoError`;
  a facade call result `(*Resp, error)` is an `Except GoError Resp`.
* The callbacks thread a `State`: the resource data `d` and the chronological
  trace of facade calls, each recorded with the answer it received.
-/

namespace Akamai

/-! ## Errors and diagnostics -/

deriving instance DecidableEq for Except

/-- Go `error` values met by the rule resource.  Each carries what its message
is built from. -/
inductive GoError where
  /-- An attribute lookup error wrapping `tools.ErrNotFound`. -/
  | notFound (key : String)
  /-- An attribute lookup error that does not wrap `tools.ErrNotFound`. -/
  | invalidType (key : String) (want : String)
  /-- The error of `splitID`: the identifier and the hint of the expected shape. -/
  | invalidIDFormat (id : String) (hint : String)
  /-- `strconv.ErrSyntax` from `strconv.Atoi`. -/
  | atoiSyntax (input : String)
  /-- `strconv.ErrRange` from `strconv.Atoi`. -/
  | atoiRange (input : String)
  /-- An error returned by the API client facade, with its message. -/
  | remote (msg : String)
  /-- An error of `json.Unmarshal` or `json.Marshal`. -/
  | json (msg : String)
  /-- The error of `validateActionAndConditionException`. -/
  | invalidAction (msg : String)
  /-- An error returned by `d.Set`. -/
  | set (msg : String)
  deriving DecidableEq, Repr

/-- Go `errors.Is(err, tools.ErrNotFound)`. -/
def GoError.isNotFound : GoError → Bool
  | .notFound _ => true
  | _ => false

/-- Go `err.Error()`: the message of an error. -/
def GoError.Error : GoError → String
  | .notFound key => "attribute not found: " ++ key
  | .invalidType key want => "value must be of the specified type: " ++ key ++ ", " ++ want
  | .invalidIDFormat id hint =>
      "invalid ID format: ID " ++ id ++ " incorrectly formatted: should be of form " ++ hint
  | .atoiSyntax input => "strconv.Atoi: parsing " ++ input ++ ": invalid syntax"
  | .atoiRange input => "strconv.Atoi: parsing " ++ input ++ ": value out of range"
  | .remote msg => msg
  | .json msg => msg
  | .invalidAction msg => msg
  | .set msg => msg

/-- One entry of `diag.Diagnostics`; every entry this resource produces has
severity `diag.Error`, so only the summary is kept. -/
structure Diagnostic where
  Summary : String
  deriving DecidableEq, Repr

/-- Go `diag.Diagnostics`; `[]` is the `nil` returned on success. -/
abbrev Diagnostics := List Diagnostic

/-- Go `diag.FromErr(err)`. -/
def diag.FromErr (err : GoError) : Diagnostics := [⟨err.Error⟩]

/-- Go `diag.Errorf("%s: %s", a, b)`. -/
def diag.Errorf (a b : String) : Diagnostics := [⟨a ++ ": " ++ b⟩]

/-- Go `diags.HasError()` for the diagnostics of this resource. -/
def Diagnostics.HasError (ds : Diagnostics) : Bool := !ds.isEmpty

/-! ## Go integers, `strconv` and `fmt` -/

/-- The range of a 64-bit Go `int`. -/
def InIntRange (n : Int) : Prop := -(2 : Int) ^ 63 ≤ n ∧ n ≤ (2 : Int) ^ 63 - 1

instance (n : Int) : Decidable (InIntRange n) := by
  unfold InIntRange; infer_instance

/-- The decimal digit character of `d < 10`: Go `byte('0' + d)`. -/
def digitChar (d : Nat) : Char := Char.ofNat (48 + d)

/-- The decimal digits of `n` put in front of `acc`, least significant digit
first written, as the loop of `strconv.formatBits` does.  `fuel` bounds the
number of digits. -/
def formatBits : Nat → Nat → List Char → List Char
  | 0, _, acc => acc
  | fuel + 1, n, acc =>
      if n < 10 then digitChar n :: acc
      else formatBits fuel (n / 10) (digitChar (n % 10) :: acc)

/-- Go `strconv.FormatInt(n, 10)`, which is what the verb `%d` prints. -/
def strconv.FormatInt (n : Int) : List Char :=
  if n < 0 then '-' :: formatBits (n.natAbs + 1) n.natAbs []
  else formatBits (n.natAbs + 1) n.natAbs []

/-- Go `strconv.Itoa(n)`. -/
def strconv.Itoa (n : Int) : String := String.mk (strconv.FormatInt n)

/-- Whether a character is one of `0` .. `9`: in Go, `ch - '0' <= 9` on bytes. -/
def isDigit (c : Char) : Bool := decide (48 ≤ c.toNat) && decide (c.toNat ≤ 57)

/-- The value of a string of decimal digits: the loop `n = n*10 + int(ch)`. -/
def digitsValue (cs : List Char) : Nat :=
  cs.foldl (fun n c => n * 10 + (c.toNat - 48)) 0

/-- Go `strconv.Atoi(s)` on a 64-bit platform: an optional sign, then one or
more decimal digits, the value inside the range of `int`. -/
def strconv.Atoi (s : String) : Except GoError Int :=
  let digits : List Char :=
    match s.toList with
    | [] => []
    | c :: rest => if c = '-' ∨ c = '+' then rest else c :: rest
  if digits.isEmpty || !digits.all isDigit then .error (.atoiSyntax s)
  else
    let n : Int :=
      if s.toList.head? = some '-' then -(digitsValue digits : Int) else (digitsValue digits : Int)
    if InIntRange n then .ok n else .error (.atoiRange s)

/-- Go `fmt.Sprintf("%d:%s:%d", a, b, c)`. -/
def fmt.Sprintf_d_s_d (a : Int) (b : String) (c : Int) : String :=
  String.mk (strconv.FormatInt a ++ ':' :: (b.toList ++ ':' :: strconv.FormatInt c))

/-- Go `strings.Split(s, ":")` on the characters of `s`: the maximal pieces
between separators, one more than the number of separators. -/
def strings.SplitColon : List Char → List (List Char)
  | [] => [[]]
  | c :: cs =>
      if c = ':' then [] :: strings.SplitColon cs
      else
        match strings.SplitColon cs with
        | [] => [[c]]
        | p :: ps => (c :: p) :: ps

/-- Modelled from the spec: `splitID` of the appsec package, whose source is
not among the files (`Decode(id, expectedArity, errorHint)`): it splits on `:`
and fails with an invalid-ID-format error that includes the hint when the
number of parts differs from the expected arity. -/
def splitID (id : String) (expectedNum : Nat) (example_ : String) : Except GoError (List String) :=
  let parts := (strings.SplitColon id.toList).map String.mk
  if parts.length ≠ expectedNum then .error (.invalidIDFormat id example_)
  else .ok parts

/-! ## The API client facade -/

/-- The library type `appsec.RuleConditions`; this code only passes it on, so
it is carried as an uninterpreted payload. -/
structure RuleConditions where
  raw : String
  deriving DecidableEq, Repr

/-- The library type `appsec.RuleException`, carried as an uninterpreted payload. -/
structure RuleException where
  raw : String
  deriving DecidableEq, Repr

/-- The library type `appsec.AdvancedExceptions`, carried as an uninterpreted payload. -/
structure AdvancedExceptions where
  raw : String
  deriving DecidableEq, Repr

/-- The library type `appsec.RuleConditionException`: three pointer fields.
Its Go zero value `RuleConditionException{}` has all three `nil`. -/
structure RuleConditionException where
  Conditions : Option RuleConditions := none
  Exception : Option RuleException := none
  AdvancedExceptionsList : Option AdvancedExceptions := none
  deriving DecidableEq, Repr

structure GetConfigurationRequest where
  ConfigID : Int
  deriving DecidableEq, Repr

/-- Modelled from the spec: the answer of the configuration query used by the
version resolvers, whose source is not among the files.  A configuration has
exactly one latest version and at most one modifiable version. -/
structure GetConfigurationResponse where
  LatestVersion : Int
  ModifiableVersion : Option Int
  deriving DecidableEq, Repr

/-- Modelled from the spec: the request that creates a new modifiable version
of a configuration from its latest version. -/
structure CreateConfigurationVersionRequest where
  ConfigID : Int
  CreateFromVersion : Int
  deriving DecidableEq, Repr

structure CreateConfigurationVersionResponse where
  Version : Int
  deriving DecidableEq, Repr

structure GetWAFModeRequest where
  ConfigID : Int := 0
  Version : Int := 0
  PolicyID : String := ""
  deriving DecidableEq, Repr

structure GetWAFModeResponse where
  Mode : String
  deriving DecidableEq, Repr

/-- The library type `appsec.UpdateRuleRequest`; `JsonPayloadRaw` is a
`json.RawMessage`, a byte string, whose zero value is empty. -/
structure UpdateRuleRequest where
  ConfigID : Int := 0
  Version : Int := 0
  PolicyID : String := ""
  RuleID : Int := 0
  Action : String := ""
  JsonPayloadRaw : String := ""
  deriving DecidableEq, Repr

structure UpdateRuleResponse where
  Action : String
  ConditionException : Option RuleConditionException
  deriving DecidableEq, Repr

structure UpdateConditionExceptionRequest where
  ConfigID : Int := 0
  Version : Int := 0
  PolicyID : String := ""
  RuleID : Int := 0
  Conditions : Option RuleConditions := none
  Exception : Option RuleException := none
  AdvancedExceptionsList : Option AdvancedExceptions := none
  deriving DecidableEq, Repr

structure UpdateConditionExceptionResponse where
  Conditions : Option RuleConditions
  Exception : Option RuleException
  AdvancedExceptionsList : Option AdvancedExceptions
  deriving DecidableEq, Repr

structure GetRuleRequest where
  ConfigID : Int := 0
  Version : Int := 0
  PolicyID : String := ""
  RuleID : Int := 0
  deriving DecidableEq, Repr

structure GetRuleResponse where
  Action : String
  ConditionException : Option RuleConditionException
  deriving DecidableEq, Repr

/-- The library method `IsEmptyConditionException` of a rule response. -/
def GetRuleResponse.IsEmptyConditionException (r : GetRuleResponse) : Bool :=
  r.ConditionException.isNone

structure GetCustomRuleActionsRequest where
  ConfigID : Int := 0
  Version : Int := 0
  PolicyID : String := ""
  RuleID : Int := 0
  deriving DecidableEq, Repr

/-- The library type `appsec.GetCustomRuleActionsResponse`, only handed to the
template renderer, carried as an uninterpreted payload. -/
structure GetCustomRuleActionsResponse where
  raw : String
  deriving DecidableEq, Repr

/-- One call of the API client facade, with its request and the answer the
facade gave. -/
inductive Call where
  | GetConfiguration (req : GetConfigurationRequest)
      (res : Except GoError GetConfigurationResponse)
  | CreateConfigurationVersion (req : CreateConfigurationVersionRequest)
      (res : Except GoError CreateConfigurationVersionResponse)
  | GetWAFMode (req : GetWAFModeRequest) (res : Except GoError GetWAFModeResponse)
  | UpdateRule (req : UpdateRuleRequest) (res : Except GoError UpdateRuleResponse)
  | UpdateRuleConditionException (req : UpdateConditionExceptionRequest)
      (res : Except GoError UpdateConditionExceptionResponse)
  | GetRule (req : GetRuleRequest) (res : Except GoError GetRuleResponse)
  | GetCustomRuleActions (req : GetCustomRuleActionsRequest)
      (res : Except GoError GetCustomRuleActionsResponse)
  deriving DecidableEq, Repr

/-- The API client facade, an external collaborator.  The answer to a call may
depend on the request and on every call made before it. -/
structure Client where
  GetConfiguration : List Call → GetConfigurationRequest →
    Except GoError GetConfigurationResponse
  CreateConfigurationVersion : List Call → CreateConfigurationVersionRequest →
    Except GoError CreateConfigurationVersionResponse
  GetWAFMode : List Call → GetWAFModeRequest → Except GoError GetWAFModeResponse
  UpdateRule : List Call → UpdateRuleRequest → Except GoError UpdateRuleResponse
  UpdateRuleConditionException : List Call → UpdateConditionExceptionRequest →
    Except GoError UpdateConditionExceptionResponse
  GetRule : List Call → GetRuleRequest → Except GoError GetRuleResponse
  GetCustomRuleActions : List Call → GetCustomRuleActionsRequest →
    Except GoError GetCustomRuleActionsResponse

/-- What the callbacks take from their surroundings: the client facade, the
cross-field validator of the package (a black box: `none` is Go `nil`) and the
two functions of `encoding/json` applied to a `RuleConditionException`. -/
structure Env where
  client : Client
  validateActionAndConditionException : String → String → Option GoError
  jsonUnmarshal : String → Except GoError RuleConditionException
  jsonMarshal : RuleConditionException → Except GoError String

/-- Modelled from the spec: the constant `AseAuto` of the appsec package, the
distinguished automatic WAF mode value; its declaration is not among the
files. -/
def AseAuto : String := "ASE_AUTO"

/-! ## Resource data -/

/-- A value of a schema attribute: `schema.TypeInt` or `schema.TypeString`. -/
inductive Value where
  | int (n : Int)
  | str (s : String)
  deriving DecidableEq, Repr

/-- The part of `schema.ResourceData` the callbacks use: the identifier, the
attributes by name, and for each attribute name whether `d.Set` on it fails
(with which message). -/
structure ResourceData where
  id : String
  attrs : List (String × Value)
  setFailures : List (String × String) := []
  deriving DecidableEq, Repr

/-- Go `d.Id()`. -/
def ResourceData.Id (d : ResourceData) : String := d.id

/-- Go `d.SetId(id)`. -/
def ResourceData.SetId (d : ResourceData) (id : String) : ResourceData :=
  { d with id := id }

/-- Go `d.Set(key, value)`: on success the attribute reads back as `value`. -/
def ResourceData.Set (d : ResourceData) (key : String) (value : Value) :
    Except GoError ResourceData :=
  match d.setFailures.lookup key with
  | some msg => .error (.set msg)
  | none => .ok { d with attrs := (key, value) :: d.attrs }

/-- Modelled from the spec: `tools.GetIntValue`, whose source is not among the
files.  It reads an attribute by name; an absent attribute gives the not-found
sentinel, and every failure comes with the zero value. -/
def tools.GetIntValue (key : String) (d : ResourceData) : Int × Option GoError :=
  match d.attrs.lookup key with
  | some (.int n) => (n, none)
  | some (.str _) => (0, some (.invalidType key "int"))
  | none => (0, some (.notFound key))

/-- Modelled from the spec: `tools.GetStringValue`, whose source is not among
the files.  It reads an attribute by name; an absent attribute gives the
not-found sentinel, and every failure comes with the zero value. -/
def tools.GetStringValue (key : String) (d : ResourceData) : String × Option GoError :=
  match d.attrs.lookup key with
  | some (.str v) => (v, none)
  | some (.int _) => ("", some (.invalidType key "string"))
  | none => ("", some (.notFound key))

/-- Modelled from the spec: the message of `tools.ErrValueSet`, whose
declaration is not among the files. -/
def tools.ErrValueSet : String := "setting property value"

/-- The state a callback runs in: the resource data and the facade calls made
so far, oldest first. -/
structure State where
  d : ResourceData
  trace : List Call
  deriving DecidableEq, Repr

/-- Appends a facade call to the trace. -/
def State.record (s : State) (c : Call) : State :=
  { s with trace := s.trace ++ [c] }

/-! ## Configuration version resolvers -/

/-- Modelled from the spec: `getModifiableConfigVersion`, whose source is not
among the files (`ResolveModifiable(configID, resourceKind) (version int)`).
It queries whether a modifiable version already exists; if not, it triggers
the remote creation of one.  Facade errors are not surfaced: the caller gets
the zero-value version. -/
def getModifiableConfigVersion (env : Env) (configID : Int) (_resourceKind : String)
    (s : State) : Int × State :=
  let getConfiguration : GetConfigurationRequest := ⟨configID⟩
  let res := env.client.GetConfiguration s.trace getConfiguration
  let s1 := s.record (.GetConfiguration getConfiguration res)
  match res with
  | .error _ => (0, s1)
  | .ok configuration =>
    match configuration.ModifiableVersion with
    | some version => (version, s1)
    | none =>
      let create : CreateConfigurationVersionRequest :=
        ⟨configID, configuration.LatestVersion⟩
      let created := env.client.CreateConfigurationVersion s1.trace create
      let s2 := s1.record (.CreateConfigurationVersion create created)
      match created with
      | .error _ => (0, s2)
      | .ok ccr => (ccr.Version, s2)

/-- Modelled from the spec: `getLatestConfigVersion` in the form the rule
resource calls it, returning a version only (`ResolveLatest(configID)`); its
source is not among the files.  It queries the facade for the current version
of the configuration; a facade error leaves the zero-value version. -/
def getLatestConfigVersion (env : Env) (configID : Int) (s : State) : Int × State :=
  let getConfiguration : GetConfigurationRequest := ⟨configID⟩
  let res := env.client.GetConfiguration s.trace getConfiguration
  let s1 := s.record (.GetConfiguration getConfiguration res)
  match res with
  | .error _ => (0, s1)
  | .ok configuration => (configuration.LatestVersion, s1)

/-! ## The callbacks of the rule resource -/

/-- The hint passed to `splitID` by Read, Update and Delete. -/
def ruleIDHint : String := "configID:securityPolicyID:ruleID"

/-- Go `resourceRuleRead`. -/
def resourceRuleRead (env : Env) (s : State) : Diagnostics × State :=
  match splitID s.d.Id 3 ruleIDHint with
  | .error err => (diag.FromErr err, s)
  | .ok iDParts =>
  match strconv.Atoi (iDParts.getD 0 "") with
  | .error err => (diag.FromErr err, s)
  | .ok configID =>
  let resolved := getLatestConfigVersion env configID s
  let version := resolved.1
  let s1 := resolved.2
  let policyID := iDParts.getD 1 ""
  match strconv.Atoi (iDParts.getD 2 "") with
  | .error err => (diag.FromErr err, s1)
  | .ok ruleID =>
  let getRule : GetRuleRequest :=
    { ConfigID := configID, Version := version, PolicyID := policyID, RuleID := ruleID }
  let res := env.client.GetRule s1.trace getRule
  let s2 := s1.record (.GetRule getRule res)
  match res with
  | .error err => (diag.FromErr err, s2)
  | .ok rule =>
  match s2.d.Set "config_id" (.int getRule.ConfigID) with
  | .error err => (diag.Errorf tools.ErrValueSet err.Error, s2)
  | .ok d1 =>
  match d1.Set "security_policy_id" (.str getRule.PolicyID) with
  | .error err => (diag.Errorf tools.ErrValueSet err.Error, { s2 with d := d1 })
  | .ok d2 =>
  match d2.Set "rule_id" (.int getRule.RuleID) with
  | .error err => (diag.Errorf tools.ErrValueSet err.Error, { s2 with d := d2 })
  | .ok d3 =>
  match d3.Set "rule_action" (.str rule.Action) with
  | .error err => (diag.Errorf tools.ErrValueSet err.Error, { s2 with d := d3 })
  | .ok d4 =>
  if !rule.IsEmptyConditionException then
    match env.jsonMarshal (rule.ConditionException.getD {}) with
    | .error err => (diag.FromErr err, { s2 with d := d4 })
    | .ok jsonBody =>
    match d4.Set "condition_exception" (.str jsonBody) with
    | .error err => (diag.Errorf tools.ErrValueSet err.Error, { s2 with d := d4 })
    | .ok d5 => ([], { s2 with d := d5 })
  else ([], { s2 with d := d4 })

/-- Go `resourceRuleCreate`. -/
def resourceRuleCreate (env : Env) (s : State) : Diagnostics × State :=
  match tools.GetIntValue "config_id" s.d with
  | (_, some err) => (diag.FromErr err, s)
  | (configID, none) =>
  let resolved := getModifiableConfigVersion env configID "rule" s
  let version := resolved.1
  let s1 := resolved.2
  match tools.GetStringValue "security_policy_id" s1.d with
  | (_, some err) => (diag.FromErr err, s1)
  | (policyID, none) =>
  match tools.GetIntValue "rule_id" s1.d with
  | (_, some err) => (diag.FromErr err, s1)
  | (ruleID, none) =>
  let lookup := tools.GetStringValue "condition_exception" s1.d
  let conditionexception := lookup.1
  -- err != nil && !errors.Is(err, tools.ErrNotFound)
  match lookup.2.filter (fun err => !err.isNotFound) with
  | some err => (diag.FromErr err, s1)
  | none =>
  let rawJSON := conditionexception
  let getWAFMode : GetWAFModeRequest :=
    { ConfigID := configID, Version := version, PolicyID := policyID }
  let res := env.client.GetWAFMode s1.trace getWAFMode
  let s2 := s1.record (.GetWAFMode getWAFMode res)
  match res with
  | .error err => (diag.FromErr err, s2)
  | .ok wafmode =>
  if wafmode.Mode = AseAuto then
    -- action is read only, only condition exception is writable
    let parsed : Except GoError RuleConditionException :=
      if conditionexception ≠ "" then env.jsonUnmarshal rawJSON else .ok {}
    match parsed with
    | .error err => (diag.FromErr err, s2)
    | .ok ruleConditionException =>
    let createRule : UpdateConditionExceptionRequest :=
      { ConfigID := configID, Version := version, PolicyID := policyID, RuleID := ruleID,
        Conditions := ruleConditionException.Conditions,
        Exception := ruleConditionException.Exception,
        AdvancedExceptionsList := ruleConditionException.AdvancedExceptionsList }
    let resp := env.client.UpdateRuleConditionException s2.trace createRule
    let s3 := s2.record (.UpdateRuleConditionException createRule resp)
    match resp with
    | .error err => (diag.FromErr err, s3)
    | .ok _ =>
    let id := fmt.Sprintf_d_s_d createRule.ConfigID createRule.PolicyID createRule.RuleID
    let s4 : State := { s3 with d := s3.d.SetId id }
    resourceRuleRead env s4
  else
    match tools.GetStringValue "rule_action" s2.d with
    | (_, some err) => (diag.FromErr err, s2)
    | (action, none) =>
    match env.validateActionAndConditionException action conditionexception with
    | some err => (diag.FromErr err, s2)
    | none =>
    let createRule : UpdateRuleRequest :=
      { ConfigID := configID, Version := version, PolicyID := policyID, RuleID := ruleID,
        Action := action, JsonPayloadRaw := rawJSON }
    let resp := env.client.UpdateRule s2.trace createRule
    let s3 := s2.record (.UpdateRule createRule resp)
    match resp with
    | .error err => (diag.FromErr err, s3)
    | .ok _ =>
    let id := fmt.Sprintf_d_s_d createRule.ConfigID createRule.PolicyID createRule.RuleID
    let s4 : State := { s3 with d := s3.d.SetId id }
    resourceRuleRead env s4

/-- Go `resourceRuleUpdate`. -/
def resourceRuleUpdate (env : Env) (s : State) : Diagnostics × State :=
  match splitID s.d.Id 3 ruleIDHint with
  | .error err => (diag.FromErr err, s)
  | .ok iDParts =>
  match strconv.Atoi (iDParts.getD 0 "") with
  | .error err => (diag.FromErr err, s)
  | .ok configID =>
  let policyID := iDParts.getD 1 ""
  let resolved := getModifiableConfigVersion env configID "rule" s
  let version := resolved.1
  let s1 := resolved.2
  match strconv.Atoi (iDParts.getD 2 "") with
  | .error err => (diag.FromErr err, s1)
  | .ok ruleID =>
  let lookup := tools.GetStringValue "condition_exception" s1.d
  let conditionexception := lookup.1
  -- err != nil && !errors.Is(err, tools.ErrNotFound)
  match lookup.2.filter (fun err => !err.isNotFound) with
  | some err => (diag.FromErr err, s1)
  | none =>
  let rawJSON := conditionexception
  let getWAFMode : GetWAFModeRequest :=
    { ConfigID := configID, Version := version, PolicyID := policyID }
  let res := env.client.GetWAFMode s1.trace getWAFMode
  let s2 := s1.record (.GetWAFMode getWAFMode res)
  match res with
  | .error err => (diag.FromErr err, s2)
  | .ok wafmode =>
  if wafmode.Mode = AseAuto then
    -- action is read only, only exception is writable
    let parsed : Except GoError RuleConditionException :=
      if conditionexception ≠ "" then env.jsonUnmarshal rawJSON else .ok {}
    match parsed with
    | .error err => (diag.FromErr err, s2)
    | .ok ruleConditionException =>
    let updateRule : UpdateConditionExceptionRequest :=
      { ConfigID := configID, Version := version, PolicyID := policyID, RuleID := ruleID,
        Conditions := ruleConditionException.Conditions,
        Exception := ruleConditionException.Exception,
        AdvancedExceptionsList := ruleConditionException.AdvancedExceptionsList }
    let resp := env.client.UpdateRuleConditionException s2.trace updateRule
    let s3 := s2.record (.UpdateRuleConditionException updateRule resp)
    match resp with
    | .error err => (diag.FromErr err, s3)
    | .ok _ => resourceRuleRead env s3
  else
    match tools.GetStringValue "rule_action" s2.d with
    | (_, some err) => (diag.FromErr err, s2)
    | (action, none) =>
    match env.validateActionAndConditionException action conditionexception with
    | some err => (diag.FromErr err, s2)
    | none =>
    let updateRule : UpdateRuleRequest :=
      { ConfigID := configID, Version := version, PolicyID := policyID, RuleID := ruleID,
        Action := action, JsonPayloadRaw := rawJSON }
    let resp := env.client.UpdateRule s2.trace updateRule
    let s3 := s2.record (.UpdateRule updateRule resp)
    match resp with
    | .error err => (diag.FromErr err, s3)
    | .ok _ => resourceRuleRead env s3

/-- Go `resourceRuleDelete`. -/
def resourceRuleDelete (env : Env) (s : State) : Diagnostics × State :=
  match splitID s.d.Id 3 ruleIDHint with
  | .error err => (diag.FromErr err, s)
  | .ok iDParts =>
  match strconv.Atoi (iDParts.getD 0 "") with
  | .error err => (diag.FromErr err, s)
  | .ok configID =>
  let resolved := getModifiableConfigVersion env configID "rule" s
  let version := resolved.1
  let s1 := resolved.2
  let policyID := iDParts.getD 1 ""
  match strconv.Atoi (iDParts.getD 2 "") with
  | .error err => (diag.FromErr err, s1)
  | .ok ruleID =>
  let getWAFMode : GetWAFModeRequest :=
    { ConfigID := configID, Version := version, PolicyID := policyID }
  let res := env.client.GetWAFMode s1.trace getWAFMode
  let s2 := s1.record (.GetWAFMode getWAFMode res)
  match res with
  | .error err => (diag.FromErr err, s2)
  | .ok wafmode =>
  if wafmode.Mode = AseAuto then
    let updateRule : UpdateConditionExceptionRequest :=
      { ConfigID := configID, Version := version, PolicyID := policyID, RuleID := ruleID }
    let resp := env.client.UpdateRuleConditionException s2.trace updateRule
    let s3 := s2.record (.UpdateRuleConditionException updateRule resp)
    match resp with
    | .error err => (diag.FromErr err, s3)
    | .ok _ => ([], { s3 with d := s3.d.SetId "" })
  else
    let updateRule : UpdateRuleRequest :=
      { ConfigID := configID, Version := version, PolicyID := policyID, RuleID := ruleID,
        Action := "none" }
    let resp := env.client.UpdateRule s2.trace updateRule
    let s3 := s2.record (.UpdateRule updateRule resp)
    match resp with
    | .error err => (diag.FromErr err, s3)
    | .ok _ => ([], { s3 with d := s3.d.SetId "" })

/-! ## Observing a run -/

/-- The facade calls a run from `s` to `s1` issued: what it appended to the trace. -/
def newCalls (s s1 : State) : List Call := s1.trace.drop s.trace.length

/-- A call of the plain rule-action update path. -/
def Call.isUpdateRule : Call → Bool
  | .UpdateRule _ _ => true
  | _ => false

/-- A call of the condition-exception update path. -/
def Call.isUpdateRuleConditionException : Call → Bool
  | .UpdateRuleConditionException _ _ => true
  | _ => false

/-- A call of `GetWAFMode`. -/
def Call.isGetWAFMode : Call → Bool
  | .GetWAFMode _ _ => true
  | _ => false

/-- The remote creation of a configuration version. -/
def Call.isCreateConfigurationVersion : Call → Bool
  | .CreateConfigurationVersion _ _ => true
  | _ => false

/-- A call a version resolver makes: the configuration query or the version creation. -/
def Call.isVersionCall : Call → Bool
  | .GetConfiguration _ _ => true
  | .CreateConfigurationVersion _ _ => true
  | _ => false

/-- A call Read makes: the configuration query or `GetRule`. -/
def Call.isReadCall : Call → Bool
  | .GetConfiguration _ _ => true
  | .GetRule _ _ => true
  | _ => false

/-- A call that changes remote state. -/
def Call.isMutating (c : Call) : Bool :=
  c.isUpdateRule || c.isUpdateRuleConditionException || c.isCreateConfigurationVersion

/-- A call that failed. -/
def Call.failed : Call → Bool
  | .GetConfiguration _ (.error _) => true
  | .CreateConfigurationVersion _ (.error _) => true
  | .GetWAFMode _ (.error _) => true
  | .UpdateRule _ (.error _) => true
  | .UpdateRuleConditionException _ (.error _) => true
  | .GetRule _ (.error _) => true
  | .GetCustomRuleActions _ (.error _) => true
  | _ => false

/-- A state holding the identifier `1:p:2` and a condition exception. -/
def updateState : State :=
  ⟨⟨"1:p:2", [("condition_exception", .str "ce"), ("rule_action", .str "alert")], []⟩, []⟩

/-- The state of the create scenario: no identifier yet, the four attributes
of the configuration block. -/
def createState : State :=
  ⟨⟨"", [("config_id", .int 43253), ("security_policy_id", .str "test_policy"),
      ("rule_id", .int 12345), ("rule_action", .str "alert")], []⟩, []⟩

/-- A client for a configuration without a modifiable version, in manual mode. -/
def publishedClient : Client where
  GetConfiguration := fun _ _ => .ok ⟨7, none⟩
  CreateConfigurationVersion := fun _ _ => .ok ⟨8⟩
  GetWAFMode := fun _ _ => .ok ⟨"ASE_MANUAL"⟩
  UpdateRule := fun _ req => .ok ⟨req.Action, none⟩
  UpdateRuleConditionException := fun _ req =>
    .ok ⟨req.Conditions, req.Exception, req.AdvancedExceptionsList⟩
  GetRule := fun _ _ => .ok ⟨"alert", none⟩
  GetCustomRuleActions := fun _ _ => .ok ⟨""⟩

/-- An environment around `publishedClient` whose validator rejects every pair. -/
def rejectingEnv : Env where
  client := publishedClient
  validateActionAndConditionException := fun _ _ => some (.invalidAction "invalid combination")
  jsonUnmarshal := fun raw => .ok { Conditions := some ⟨raw⟩ }
  jsonMarshal := fun _ => .ok ""

/-- The calls a modifiable-version resolution issues. -/
def versionCalls (env : Env) (configID : Int) (resourceKind : String) (s : State) : List Call :=
  newCalls s (getModifiableConfigVersion env configID resourceKind s).2

/-- The calls a Read issues. -/
def readCalls (env : Env) (s : State) : List Call :=
  newCalls s (resourceRuleRead env s).2

/-- The two update paths of a rule: `UpdateRule` and `UpdateRuleConditionException`. -/
def Call.isUpdate (c : Call) : Bool := c.isUpdateRule || c.isUpdateRuleConditionException

/-! ## Sanity checks on a concrete client -/

/-- A client whose calls all succeed, answering with the given WAF mode. -/
def okClient (mode : String) : Client where
  GetConfiguration := fun _ _ => .ok ⟨7, some 7⟩
  CreateConfigurationVersion := fun _ _ => .ok ⟨8⟩
  GetWAFMode := fun _ _ => .ok ⟨mode⟩
  UpdateRule := fun _ req => .ok ⟨req.Action, none⟩
  UpdateRuleConditionException := fun _ req =>
    .ok ⟨req.Conditions, req.Exception, req.AdvancedExceptionsList⟩
  GetRule := fun _ _ => .ok ⟨"alert", none⟩
  GetCustomRuleActions := fun _ _ => .ok ⟨""⟩

/-- An environment around `okClient` whose validator accepts everything and
whose JSON functions treat the payload as text. -/
def okEnv (mode : String) : Env where
  client := okClient mode
  validateActionAndConditionException := fun _ _ => none
  jsonUnmarshal := fun raw => .ok { Conditions := some ⟨raw⟩ }
  jsonMarshal := fun _ => .ok ""

/-! ## The custom rule actions data source -/

/-- Modelled from the spec: `getLatestConfigVersion` in the form the data
source calls it, returning a version and an error
(`ResolveLatest(configID) (version int, err error)`); its source is not among
the files.  It queries the facade for the current version of the
configuration and fails with the lookup error if the facade call errors. -/
def getLatestConfigVersionWithError (env : Env) (configID : Int) (s : State) :
    (Int × Option GoError) × State :=
  let getConfiguration : GetConfigurationRequest := ⟨configID⟩
  let res := env.client.GetConfiguration s.trace getConfiguration
  let s1 := s.record (.GetConfiguration getConfiguration res)
  match res with
  | .error err => ((0, some err), s1)
  | .ok configuration => ((configuration.LatestVersion, none), s1)

/-- Go `dataSourceCustomRuleActionsRead`.  `RenderTemplates` stands for the
template renderer of the package applied to the initialised templates and a
template name; its source is not among the files. -/
def dataSourceCustomRuleActionsRead (env : Env)
    (RenderTemplates : String → GetCustomRuleActionsResponse → Except GoError String)
    (s : State) : Diagnostics × State :=
  match tools.GetIntValue "config_id" s.d with
  | (_, some err) => (diag.FromErr err, s)
  | (configID, none) =>
  let resolved := getLatestConfigVersionWithError env configID s
  let s1 := resolved.2
  match resolved.1 with
  | (_, some err) => (diag.FromErr err, s1)
  | (version, none) =>
  match tools.GetStringValue "security_policy_id" s1.d with
  | (_, some err) => (diag.FromErr err, s1)
  | (policyID, none) =>
  let lookup := tools.GetIntValue "custom_rule_id" s1.d
  let customRuleID := lookup.1
  -- err != nil && !errors.Is(err, tools.ErrNotFound)
  match lookup.2.filter (fun err => !err.isNotFound) with
  | some err => (diag.FromErr err, s1)
  | none =>
  let getCustomRuleActions : GetCustomRuleActionsRequest :=
    { ConfigID := configID, Version := version, PolicyID := policyID, RuleID := customRuleID }
  let res := env.client.GetCustomRuleActions s1.trace getCustomRuleActions
  let s2 := s1.record (.GetCustomRuleActions getCustomRuleActions res)
  match res with
  | .error err => (diag.FromErr err, s2)
  | .ok customruleactions =>
  match RenderTemplates "customRuleAction" customruleactions with
  | .error err => (diag.FromErr err, s2)
  | .ok outputtext =>
  match s2.d.Set "output_text" (.str outputtext) with
  | .error err => (diag.Errorf tools.ErrValueSet err.Error, s2)
  | .ok d1 =>
  ([], { s2 with d := d1.SetId (strconv.Itoa getCustomRuleActions.ConfigID) })

/-! ## `tools.SetToStringSlice` -/

/-- A Go `interface{}` value as a `schema.Set` may hold it. -/
inductive Iface where
  | str (s : String)
  | int (n : Int)
  | bool (b : Bool)
  deriving DecidableEq, Repr

/-- Go type assertion `v.(string)`; `none` is the run-time panic of a failed
assertion. -/
def Iface.assertString : Iface → Option String
  | .str s => some s
  | _ => none

/-- The part of the SDK type `schema.Set` that `SetToStringSlice` uses: the
elements in the order `List()` returns them.  A set holds no element twice. -/
structure schema.Set where
  items : List Iface
  nodup : items.Nodup

/-- Go `s.Len()`. -/
def schema.Set.Len (s : schema.Set) : Nat := s.items.length

/-- Go `s.List()`. -/
def schema.Set.List (s : schema.Set) : List Iface := s.items

/-- The loop `for i, v := range s.List() { list[i] = v.(string) }` from index
`i` on; `none` is a panic (failed type assertion or index out of range). -/
def SetToStringSliceLoop : List Iface → Nat → List String → Option (List String)
  | [], _, list => some list
  | v :: rest, i, list =>
      match v.assertString with
      | none => none
      | some str =>
          if i < list.length then SetToStringSliceLoop rest (i + 1) (list.set i str)
          else none

/-- Go `tools.SetToStringSlice`: `list := make([]string, s.Len())`, then the loop. -/
def tools.SetToStringSlice (s : schema.Set) : Option (List String) :=
  SetToStringSliceLoop s.List 0 (List.replicate s.Len "")

/-! ## Further observations of a run -/

/-- The `Version` field of a `GetWAFMode`, `UpdateRule` or
`UpdateRuleConditionException` request. -/
def Call.writeVersion : Call → Option Int
  | .GetWAFMode req _ => some req.Version
  | .UpdateRule req _ => some req.Version
  | .UpdateRuleConditionException req _ => some req.Version
  | _ => none

/-- The `Version` field of a `GetRule` request. -/
def Call.readVersion : Call → Option Int
  | .GetRule req _ => some req.Version
  | _ => none

/-- The error of a failed `GetWAFMode`, `UpdateRule`,
`UpdateRuleConditionException` or `GetRule` call. -/
def Call.abortError : Call → Option GoError
  | .GetWAFMode _ (.error err) => some err
  | .UpdateRule _ (.error err) => some err
  | .UpdateRuleConditionException _ (.error err) => some err
  | .GetRule _ (.error err) => some err
  | _ => none

/-- An update call that succeeded. -/
def Call.isSuccessfulUpdate : Call → Bool
  | .UpdateRule _ (.ok _) => true
  | .UpdateRuleConditionException _ (.ok _) => true
  | _ => false

/-- Whether, in a sequence of calls, nothing follows a failed `GetWAFMode`,
`UpdateRule`, `UpdateRuleConditionException` or `GetRule` call. -/
def noCallAfterFailure : List Call → Bool
  | [] => true
  | c :: rest => if c.abortError.isSome then rest.isEmpty else noCallAfterFailure rest

/-- The schema attributes of the rule resource, in the order Read sets them. -/
def ruleAttributes : List String :=
  ["config_id", "security_policy_id", "rule_id", "rule_action", "condition_exception"]

/-- A client whose configuration query fails and whose other calls succeed. -/
def lookupFailingClient : Client where
  GetConfiguration := fun _ _ => .error (.remote "lookup failed")
  CreateConfigurationVersion := fun _ _ => .ok ⟨8⟩
  GetWAFMode := fun _ _ => .ok ⟨"ASE_MANUAL"⟩
  UpdateRule := fun _ req => .ok ⟨req.Action, none⟩
  UpdateRuleConditionException := fun _ req =>
    .ok ⟨req.Conditions, req.Exception, req.AdvancedExceptionsList⟩
  GetRule := fun _ _ => .ok ⟨"alert", none⟩
  GetCustomRuleActions := fun _ _ => .ok ⟨""⟩

/-- A client in manual mode whose update succeeds and whose `GetRule` fails. -/
def readFailingClient : Client where
  GetConfiguration := fun _ _ => .ok ⟨7, some 7⟩
  CreateConfigurationVersion := fun _ _ => .ok ⟨8⟩
  GetWAFMode := fun _ _ => .ok ⟨"ASE_MANUAL"⟩
  UpdateRule := fun _ req => .ok ⟨req.Action, none⟩
  UpdateRuleConditionException := fun _ req =>
    .ok ⟨req.Conditions, req.Exception, req.AdvancedExceptionsList⟩
  GetRule := fun _ _ => .error (.remote "rule not readable")
  GetCustomRuleActions := fun _ _ => .ok ⟨""⟩

/-- A client whose `GetWAFMode` fails with the message `boom`. -/
def modeFailingClient : Client where
  GetConfiguration := fun _ _ => .ok ⟨7, some 7⟩
  CreateConfigurationVersion := fun _ _ => .ok ⟨8⟩
  GetWAFMode := fun _ _ => .error (.remote "boom")
  UpdateRule := fun _ req => .ok ⟨req.Action, none⟩
  UpdateRuleConditionException := fun _ req =>
    .ok ⟨req.Conditions, req.Exception, req.AdvancedExceptionsList⟩
  GetRule := fun _ _ => .ok ⟨"alert", none⟩
  GetCustomRuleActions := fun _ _ => .ok ⟨""⟩

/-- The renderer that prints the payload of the response. -/
def rawRenderer : String → GetCustomRuleActionsResponse → Except GoError String :=
  fun _ resp => .ok resp.raw

/-- The state of a data source read: config_id and security_policy_id given,
custom_rule_id absent. -/
def dataSourceState : State :=
  ⟨⟨"", [("config_id", .int 43253), ("security_policy_id", .str "test_policy")], []⟩, []⟩

/-- The create state with a policy identifier that contains the separator. -/
def colonPolicyState : State :=
  ⟨⟨"", [("config_id", .int 43253), ("security_policy_id", .str "a:b"),
      ("rule_id", .int 12345), ("rule_action", .str "alert")], []⟩, []⟩

/-! ## The composite identifier codec -/

theorem digitChar_toNat (d : Nat) (h : d < 10) : (digitChar d).toNat = 48 + d := by
  interval_cases d <;> decide

theorem isDigit_digitChar (d : Nat) (h : d < 10) : isDigit (digitChar d) = true := by
  interval_cases d <;> decide

theorem digitChar_ne_colon (d : Nat) (h : d < 10) : digitChar d ≠ ':' := by
  interval_cases d <;> decide

theorem digitChar_ne_minus (d : Nat) (h : d < 10) : digitChar d ≠ '-' := by
  interval_cases d <;> decide

theorem digitChar_ne_plus (d : Nat) (h : d < 10) : digitChar d ≠ '+' := by
  interval_cases d <;> decide

/-- Every character `formatBits` produces is a decimal digit or comes from the
accumulator. -/
theorem formatBits_mem (fuel n : Nat) (acc : List Char) (c : Char)
    (hc : c ∈ formatBits fuel n acc) : c ∈ acc ∨ ∃ d, d < 10 ∧ c = digitChar d := by
  induction fuel generalizing n acc with
  | zero => exact Or.inl (by simpa [formatBits] using hc)
  | succ fuel ih =>
    unfold formatBits at hc
    split at hc
    · rename_i hlt
      rcases List.mem_cons.mp hc with h | h
      · exact Or.inr ⟨n, hlt, h⟩
      · exact Or.inl h
    · rcases ih _ _ hc with h | h
      · rcases List.mem_cons.mp h with h | h
        · exact Or.inr ⟨n % 10, Nat.mod_lt _ (by decide), h⟩
        · exact Or.inl h
      · exact Or.inr h

theorem formatBits_ne_nil (fuel n : Nat) (acc : List Char) :
    formatBits (fuel + 1) n acc ≠ [] := by
  induction fuel generalizing n acc with
  | zero =>
    unfold formatBits
    split
    · simp
    · simp [formatBits]
  | succ fuel ih =>
    unfold formatBits
    split
    · simp
    · exact ih _ _

/-- Reading back the digits `formatBits` wrote gives the number. -/
theorem foldl_formatBits (fuel n : Nat) (acc : List Char) (h : n < fuel) :
    (formatBits fuel n acc).foldl (fun n c => n * 10 + (c.toNat - 48)) 0
      = acc.foldl (fun n c => n * 10 + (c.toNat - 48)) n := by
  induction fuel generalizing n acc with
  | zero => omega
  | succ fuel ih =>
    unfold formatBits
    split
    · rename_i hlt
      simp [List.foldl_cons, digitChar_toNat n hlt]
    · rename_i hge
      have hdiv : n / 10 < fuel := by omega
      rw [ih (n / 10) _ hdiv]
      have hmod : n % 10 < 10 := Nat.mod_lt _ (by decide)
      simp only [List.foldl_cons, digitChar_toNat _ hmod]
      congr 1
      omega

theorem digitsValue_formatBits (n : Nat) : digitsValue (formatBits (n + 1) n []) = n := by
  unfold digitsValue
  rw [foldl_formatBits (n + 1) n [] (by omega)]
  rfl

theorem formatBits_all_isDigit (n : Nat) :
    (formatBits (n + 1) n []).all isDigit = true := by
  rw [List.all_eq_true]
  intro c hc
  rcases formatBits_mem _ _ _ _ hc with h | ⟨d, hd, rfl⟩
  · simp at h
  · exact isDigit_digitChar d hd

/-- The digits of a natural number start with a digit, so with no sign. -/
theorem formatBits_cons (n : Nat) :
    ∃ c rest, formatBits (n + 1) n [] = c :: rest ∧ c ≠ '-' ∧ c ≠ '+' := by
  cases hfb : formatBits (n + 1) n [] with
  | nil => exact absurd hfb (formatBits_ne_nil n n [])
  | cons c rest =>
    refine ⟨c, rest, rfl, ?_, ?_⟩
    · have hc : c ∈ formatBits (n + 1) n [] := by rw [hfb]; simp
      rcases formatBits_mem _ _ _ _ hc with h | ⟨d, hd, rfl⟩
      · simp at h
      · exact digitChar_ne_minus d hd
    · have hc : c ∈ formatBits (n + 1) n [] := by rw [hfb]; simp
      rcases formatBits_mem _ _ _ _ hc with h | ⟨d, hd, rfl⟩
      · simp at h
      · exact digitChar_ne_plus d hd

/-- No separator in what `%d` prints. -/
theorem colon_not_mem_FormatInt (n : Int) : ':' ∉ strconv.FormatInt n := by
  intro hc
  unfold strconv.FormatInt at hc
  split at hc
  · rcases List.mem_cons.mp hc with h | h
    · exact absurd h (by decide)
    · rcases formatBits_mem _ _ _ _ h with h | ⟨d, hd, h⟩
      · simp at h
      · exact digitChar_ne_colon d hd h.symm
  · rcases formatBits_mem _ _ _ _ hc with h | ⟨d, hd, h⟩
    · simp at h
    · exact digitChar_ne_colon d hd h.symm

/-- Parsing what `%d` prints gives the number back, for every Go `int`. -/
theorem Atoi_FormatInt (n : Int) (hn : InIntRange n) :
    strconv.Atoi (String.mk (strconv.FormatInt n)) = .ok n := by
  obtain ⟨c, rest, hfb, hm, hp⟩ := formatBits_cons n.natAbs
  have hall := formatBits_all_isDigit n.natAbs
  have hval := digitsValue_formatBits n.natAbs
  rw [hfb] at hall hval
  unfold strconv.Atoi strconv.FormatInt
  by_cases hneg : n < 0
  · have habs : ((n.natAbs : Nat) : Int) = -n := by omega
    simp [hneg, hfb, hall, hval, hn, habs]
  · have habs : ((n.natAbs : Nat) : Int) = n := by omega
    simp [hneg, hfb, hall, hval, hn, habs, hm, hp]

theorem SplitColon_of_not_mem (a : List Char) (h : ':' ∉ a) : strings.SplitColon a = [a] := by
  induction a with
  | nil => rfl
  | cons c cs ih =>
    have hc : c ≠ ':' := fun e => h (by simp [e])
    have hcs : ':' ∉ cs := fun e => h (List.mem_cons_of_mem _ e)
    simp [strings.SplitColon, hc, ih hcs]

theorem SplitColon_append (a rest : List Char) (h : ':' ∉ a) :
    strings.SplitColon (a ++ ':' :: rest) = a :: strings.SplitColon rest := by
  induction a with
  | nil => simp [strings.SplitColon]
  | cons c cs ih =>
    have hc : c ≠ ':' := fun e => h (by simp [e])
    have hcs : ':' ∉ cs := fun e => h (List.mem_cons_of_mem _ e)
    simp [strings.SplitColon, hc, ih hcs]

/-- C1. Round trip of the rule composite ID: for every Go `int` configID and
ruleID and every policyID without a colon, splitting the identifier that
Create builds with `%d:%s:%d` into 3 parts succeeds, and `strconv.Atoi` on
parts 0 and 2 together with part 1 gives back exactly
(configID, policyID, ruleID). -/
theorem rule_id_round_trip (configID : Int) (policyID : String) (ruleID : Int)
    (hc : InIntRange configID) (hr : InIntRange ruleID) (hp : ':' ∉ policyID.toList) :
    ∃ iDParts, splitID (fmt.Sprintf_d_s_d configID policyID ruleID) 3 ruleIDHint = .ok iDParts
      ∧ strconv.Atoi (iDParts.getD 0 "") = .ok configID
      ∧ iDParts.getD 1 "" = policyID
      ∧ strconv.Atoi (iDParts.getD 2 "") = .ok ruleID := by
  have hsplit : strings.SplitColon
      (strconv.FormatInt configID ++ ':' :: (policyID.toList ++ ':' :: strconv.FormatInt ruleID))
      = [strconv.FormatInt configID, policyID.toList, strconv.FormatInt ruleID] := by
    rw [SplitColon_append _ _ (colon_not_mem_FormatInt configID), SplitColon_append _ _ hp,
      SplitColon_of_not_mem _ (colon_not_mem_FormatInt ruleID)]
  refine ⟨[String.mk (strconv.FormatInt configID), policyID,
    String.mk (strconv.FormatInt ruleID)], ?_, ?_, ?_, ?_⟩
  · simp only [String.toList] at hsplit
    simp [splitID, fmt.Sprintf_d_s_d, String.toList, hsplit]
  · simpa using Atoi_FormatInt configID hc
  · simp
  · simpa using Atoi_FormatInt ruleID hr

theorem rule_id_round_trip_witness :
    InIntRange 43253 ∧ InIntRange 12345 ∧ ':' ∉ "test_policy".toList ∧
    ∃ iDParts, splitID (fmt.Sprintf_d_s_d 43253 "test_policy" 12345) 3 ruleIDHint = .ok iDParts
      ∧ strconv.Atoi (iDParts.getD 0 "") = .ok 43253
      ∧ iDParts.getD 1 "" = "test_policy"
      ∧ strconv.Atoi (iDParts.getD 2 "") = .ok 12345 :=
  ⟨by decide, by decide, by decide,
    rule_id_round_trip 43253 "test_policy" 12345 (by decide) (by decide) (by decide)⟩

/-! ## Traces of the version resolvers and of Read -/

@[simp] theorem record_trace (s : State) (c : Call) : (s.record c).trace = s.trace ++ [c] := rfl

@[simp] theorem record_d (s : State) (c : Call) : (s.record c).d = s.d := rfl

theorem newCalls_of_trace_eq (s s1 : State) (l : List Call) (h : s1.trace = s.trace ++ l) :
    newCalls s s1 = l := by
  simp [newCalls, h]

@[simp] theorem newCalls_self (s : State) : newCalls s s = [] := by
  simp [newCalls]

/-- The modifiable-version resolver leaves the resource data alone. -/
@[simp] theorem getModifiableConfigVersion_d (env : Env) (c : Int) (k : String) (s : State) :
    (getModifiableConfigVersion env c k s).2.d = s.d := by
  unfold getModifiableConfigVersion
  simp only
  split
  · rfl
  · split
    · rfl
    · split <;> rfl

/-- The modifiable-version resolver appends only its own calls. -/
theorem getModifiableConfigVersion_trace (env : Env) (c : Int) (k : String) (s : State) :
    ∃ l, (getModifiableConfigVersion env c k s).2.trace = s.trace ++ l
      ∧ ∀ e ∈ l, e.isVersionCall = true := by
  unfold getModifiableConfigVersion
  simp only
  split
  · exact ⟨[_], rfl, by simp [Call.isVersionCall]⟩
  · split
    · exact ⟨[_], rfl, by simp [Call.isVersionCall]⟩
    · split
      · exact ⟨_, by simp only [record_trace, List.append_assoc]; rfl,
          by simp [Call.isVersionCall]⟩
      · exact ⟨_, by simp only [record_trace, List.append_assoc]; rfl,
          by simp [Call.isVersionCall]⟩

@[simp] theorem getLatestConfigVersion_d (env : Env) (c : Int) (s : State) :
    (getLatestConfigVersion env c s).2.d = s.d := by
  unfold getLatestConfigVersion
  simp only
  split <;> rfl

theorem getLatestConfigVersion_trace (env : Env) (c : Int) (s : State) :
    (getLatestConfigVersion env c s).2.trace
      = s.trace ++ [.GetConfiguration ⟨c⟩ (env.client.GetConfiguration s.trace ⟨c⟩)] := by
  unfold getLatestConfigVersion
  simp only
  split <;> rfl

theorem Set_eq_ok_iff (d d1 : ResourceData) (k : String) (v : Value) :
    d.Set k v = .ok d1 ↔
      d.setFailures.lookup k = none ∧ d1 = { d with attrs := (k, v) :: d.attrs } := by
  unfold ResourceData.Set
  split
  · rename_i msg h
    simp [h]
  · rename_i h
    simp only [h, Except.ok.injEq, true_and]
    exact eq_comm

/-- Read never changes the identifier. -/
theorem resourceRuleRead_id (env : Env) (s : State) :
    (resourceRuleRead env s).2.d.id = s.d.id := by
  unfold resourceRuleRead
  simp only
  repeat' split
  all_goals first | rfl | (simp; done) | simp_all [Set_eq_ok_iff]

/-- Read appends only configuration queries and `GetRule` calls. -/
theorem resourceRuleRead_trace (env : Env) (s : State) :
    ∃ l, (resourceRuleRead env s).2.trace = s.trace ++ l ∧ ∀ e ∈ l, e.isReadCall = true := by
  unfold resourceRuleRead
  simp only
  repeat' split
  all_goals first
    | (refine ⟨[], ?_, ?_⟩ <;> simp <;> done)
    | (simp only [record_trace, getLatestConfigVersion_trace, List.append_assoc]
       refine ⟨_, rfl, ?_⟩
       simp [Call.isReadCall])

@[simp] theorem getModifiableConfigVersion_trace_eq (env : Env) (c : Int) (k : String)
    (s : State) :
    (getModifiableConfigVersion env c k s).2.trace = s.trace ++ versionCalls env c k s := by
  obtain ⟨l, hl, -⟩ := getModifiableConfigVersion_trace env c k s
  rw [versionCalls, newCalls, hl, List.drop_left]

theorem versionCalls_kind (env : Env) (c : Int) (k : String) (s : State) :
    ∀ e ∈ versionCalls env c k s, e.isVersionCall = true := by
  obtain ⟨l, hl, hk⟩ := getModifiableConfigVersion_trace env c k s
  rw [versionCalls, newCalls, hl, List.drop_left]
  exact hk

@[simp] theorem resourceRuleRead_trace_eq (env : Env) (s : State) :
    (resourceRuleRead env s).2.trace = s.trace ++ readCalls env s := by
  obtain ⟨l, hl, -⟩ := resourceRuleRead_trace env s
  rw [readCalls, newCalls, hl, List.drop_left]

theorem readCalls_kind (env : Env) (s : State) :
    ∀ e ∈ readCalls env s, e.isReadCall = true := by
  obtain ⟨l, hl, hk⟩ := resourceRuleRead_trace env s
  rw [readCalls, newCalls, hl, List.drop_left]
  exact hk

/-- Filtering a list for a kind of call none of its members has leaves nothing. -/
theorem filter_eq_nil_of_kind (l : List Call) (k p : Call → Bool)
    (hk : ∀ e ∈ l, k e = true) (hkp : ∀ e, k e = true → p e = false) :
    l.filter p = [] := by
  rw [List.filter_eq_nil_iff]
  intro e he
  simp [hkp e (hk e he)]

@[simp] theorem versionCalls_filter_isUpdateRule (env : Env) (c : Int) (k : String) (s : State) :
    (versionCalls env c k s).filter Call.isUpdateRule = [] :=
  filter_eq_nil_of_kind _ _ _ (versionCalls_kind env c k s)
    (by intro e; cases e <;> simp [Call.isVersionCall, Call.isUpdateRule])

@[simp] theorem versionCalls_filter_isUpdateRuleConditionException (env : Env) (c : Int)
    (k : String) (s : State) :
    (versionCalls env c k s).filter Call.isUpdateRuleConditionException = [] :=
  filter_eq_nil_of_kind _ _ _ (versionCalls_kind env c k s)
    (by intro e; cases e <;> simp [Call.isVersionCall, Call.isUpdateRuleConditionException])

@[simp] theorem versionCalls_filter_isUpdate (env : Env) (c : Int) (k : String) (s : State) :
    (versionCalls env c k s).filter Call.isUpdate = [] :=
  filter_eq_nil_of_kind _ _ _ (versionCalls_kind env c k s)
    (by intro e; cases e <;> simp [Call.isVersionCall, Call.isUpdate, Call.isUpdateRule,
      Call.isUpdateRuleConditionException])

@[simp] theorem versionCalls_filter_isGetWAFMode (env : Env) (c : Int) (k : String) (s : State) :
    (versionCalls env c k s).filter Call.isGetWAFMode = [] :=
  filter_eq_nil_of_kind _ _ _ (versionCalls_kind env c k s)
    (by intro e; cases e <;> simp [Call.isVersionCall, Call.isGetWAFMode])

@[simp] theorem readCalls_filter_isUpdateRule (env : Env) (s : State) :
    (readCalls env s).filter Call.isUpdateRule = [] :=
  filter_eq_nil_of_kind _ _ _ (readCalls_kind env s)
    (by intro e; cases e <;> simp [Call.isReadCall, Call.isUpdateRule])

@[simp] theorem readCalls_filter_isUpdateRuleConditionException (env : Env) (s : State) :
    (readCalls env s).filter Call.isUpdateRuleConditionException = [] :=
  filter_eq_nil_of_kind _ _ _ (readCalls_kind env s)
    (by intro e; cases e <;> simp [Call.isReadCall, Call.isUpdateRuleConditionException])

@[simp] theorem readCalls_filter_isUpdate (env : Env) (s : State) :
    (readCalls env s).filter Call.isUpdate = [] :=
  filter_eq_nil_of_kind _ _ _ (readCalls_kind env s)
    (by intro e; cases e <;> simp [Call.isReadCall, Call.isUpdate, Call.isUpdateRule,
      Call.isUpdateRuleConditionException])

@[simp] theorem readCalls_filter_isGetWAFMode (env : Env) (s : State) :
    (readCalls env s).filter Call.isGetWAFMode = [] :=
  filter_eq_nil_of_kind _ _ _ (readCalls_kind env s)
    (by intro e; cases e <;> simp [Call.isReadCall, Call.isGetWAFMode])

@[simp] theorem readCalls_filter_isMutating (env : Env) (s : State) :
    (readCalls env s).filter Call.isMutating = [] :=
  filter_eq_nil_of_kind _ _ _ (readCalls_kind env s)
    (by intro e; cases e <;> simp [Call.isReadCall, Call.isMutating, Call.isUpdateRule,
      Call.isUpdateRuleConditionException, Call.isCreateConfigurationVersion])

@[simp] theorem GetWAFMode_not_mem_versionCalls (env : Env) (c : Int) (k : String) (s : State)
    (req : GetWAFModeRequest) (res : Except GoError GetWAFModeResponse) :
    Call.GetWAFMode req res ∉ versionCalls env c k s := by
  intro h
  simpa [Call.isVersionCall] using versionCalls_kind env c k s _ h

@[simp] theorem GetWAFMode_not_mem_readCalls (env : Env) (s : State)
    (req : GetWAFModeRequest) (res : Except GoError GetWAFModeResponse) :
    Call.GetWAFMode req res ∉ readCalls env s := by
  intro h
  simpa [Call.isReadCall] using readCalls_kind env s _ h

/-! ## Malformed identifiers -/

/-- C2. For every identifier whose number of parts after splitting on the
colon differs from 3, Read, Update and Delete each return the
invalid-ID-format error carrying the hint `configID:securityPolicyID:ruleID`,
and leave the state as it was: no facade call is issued. -/
theorem malformed_id_rejected_without_call (env : Env) (s : State)
    (h : (strings.SplitColon s.d.Id.toList).length ≠ 3) :
    resourceRuleRead env s
        = (diag.FromErr (.invalidIDFormat s.d.Id "configID:securityPolicyID:ruleID"), s)
      ∧ resourceRuleUpdate env s
        = (diag.FromErr (.invalidIDFormat s.d.Id "configID:securityPolicyID:ruleID"), s)
      ∧ resourceRuleDelete env s
        = (diag.FromErr (.invalidIDFormat s.d.Id "configID:securityPolicyID:ruleID"), s)
      ∧ newCalls s (resourceRuleRead env s).2 = []
      ∧ newCalls s (resourceRuleUpdate env s).2 = []
      ∧ newCalls s (resourceRuleDelete env s).2 = [] := by
  have hsplit : splitID s.d.Id 3 ruleIDHint
      = .error (.invalidIDFormat s.d.Id "configID:securityPolicyID:ruleID") := by
    simp only [String.toList] at h
    simp [splitID, h, ruleIDHint]
  have hR : resourceRuleRead env s
      = (diag.FromErr (.invalidIDFormat s.d.Id "configID:securityPolicyID:ruleID"), s) := by
    unfold resourceRuleRead
    rw [hsplit]
  have hU : resourceRuleUpdate env s
      = (diag.FromErr (.invalidIDFormat s.d.Id "configID:securityPolicyID:ruleID"), s) := by
    unfold resourceRuleUpdate
    rw [hsplit]
  have hD : resourceRuleDelete env s
      = (diag.FromErr (.invalidIDFormat s.d.Id "configID:securityPolicyID:ruleID"), s) := by
    unfold resourceRuleDelete
    rw [hsplit]
  refine ⟨hR, hU, hD, ?_, ?_, ?_⟩
  · rw [hR]; exact newCalls_self s
  · rw [hU]; exact newCalls_self s
  · rw [hD]; exact newCalls_self s

theorem malformed_id_rejected_without_call_witness :
    (strings.SplitColon (State.mk ⟨"1:2", [], []⟩ []).d.Id.toList).length ≠ 3
      ∧ resourceRuleUpdate (okEnv AseAuto) ⟨⟨"1:2", [], []⟩, []⟩
        = (diag.FromErr (.invalidIDFormat "1:2" "configID:securityPolicyID:ruleID"),
            ⟨⟨"1:2", [], []⟩, []⟩) :=
  ⟨by decide,
    (malformed_id_rejected_without_call (okEnv AseAuto) ⟨⟨"1:2", [], []⟩, []⟩ (by decide)).2.1⟩

/-! ## The mode-conditional update paths -/

/-- C3. In every run of Update in which `GetWAFMode` succeeds with the
automatic mode and `condition_exception` is a non-empty string that parses,
exactly one `UpdateRuleConditionException` call is issued, carrying the parsed
Conditions, Exception and AdvancedExceptionsList, and no `UpdateRule` call is
issued. -/
theorem update_auto_uses_condition_exception_path (env : Env) (s : State)
    (ce : String) (rce : RuleConditionException)
    (wafReq : GetWAFModeRequest) (wafResp : GetWAFModeResponse)
    (hce : tools.GetStringValue "condition_exception" s.d = (ce, none))
    (hne : ce ≠ "")
    (hparse : env.jsonUnmarshal ce = .ok rce)
    (hmode : Call.GetWAFMode wafReq (.ok wafResp) ∈ newCalls s (resourceRuleUpdate env s).2)
    (hauto : wafResp.Mode = AseAuto) :
    (∃ req res,
        (newCalls s (resourceRuleUpdate env s).2).filter Call.isUpdateRuleConditionException
          = [.UpdateRuleConditionException req res]
        ∧ req.Conditions = rce.Conditions
        ∧ req.Exception = rce.Exception
        ∧ req.AdvancedExceptionsList = rce.AdvancedExceptionsList)
      ∧ (newCalls s (resourceRuleUpdate env s).2).filter Call.isUpdateRule = [] := by
  revert hmode
  unfold resourceRuleUpdate
  simp only [getModifiableConfigVersion_d, record_d, hce, hne]
  repeat' split
  all_goals simp_all [newCalls, Call.isUpdateRule, Call.isUpdateRuleConditionException]
  all_goals (rintro - rfl; contradiction)

set_option maxRecDepth 100000 in
theorem update_auto_uses_condition_exception_path_witness :
    Call.GetWAFMode ⟨1, 7, "p"⟩ (.ok ⟨AseAuto⟩)
        ∈ newCalls updateState (resourceRuleUpdate (okEnv AseAuto) updateState).2
      ∧ (newCalls updateState (resourceRuleUpdate (okEnv AseAuto) updateState).2).filter
          Call.isUpdateRule = [] :=
  ⟨by decide,
    (update_auto_uses_condition_exception_path (okEnv AseAuto) updateState "ce"
      { Conditions := some ⟨"ce"⟩ } ⟨1, 7, "p"⟩ ⟨AseAuto⟩
      (by decide) (by decide) (by decide) (by decide) (by decide)).2⟩

set_option maxRecDepth 100000 in
/-- C4, as stated, fails. With a configuration that has no modifiable version,
a policy in manual mode and a validator that rejects the pair, Create returns
the validator error, yet a remote version creation has already been issued. -/
theorem create_rejected_after_version_creation :
    Call.GetWAFMode ⟨43253, 8, "test_policy"⟩ (.ok ⟨"ASE_MANUAL"⟩)
        ∈ newCalls createState (resourceRuleCreate rejectingEnv createState).2
      ∧ rejectingEnv.validateActionAndConditionException "alert" ""
          = some (.invalidAction "invalid combination")
      ∧ (resourceRuleCreate rejectingEnv createState).1
          = diag.FromErr (.invalidAction "invalid combination")
      ∧ (newCalls createState (resourceRuleCreate rejectingEnv createState).2).filter
          Call.isMutating = [.CreateConfigurationVersion ⟨43253, 7⟩ (.ok ⟨8⟩)] := by
  decide

/-- C4, amended. In every run of Create or Update in which `GetWAFMode`
answers a mode other than automatic and the validator rejects the pair
(rule_action, condition_exception), the operation returns the validator error,
the resource data are untouched and neither `UpdateRule` nor
`UpdateRuleConditionException` has been issued at any point of the run. -/
theorem rejected_pair_issues_no_update (op : Env → State → Diagnostics × State)
    (hop : op = resourceRuleCreate ∨ op = resourceRuleUpdate)
    (env : Env) (s : State) (action : String) (err : GoError)
    (wafReq : GetWAFModeRequest) (wafResp : GetWAFModeResponse)
    (hmode : Call.GetWAFMode wafReq (.ok wafResp) ∈ newCalls s (op env s).2)
    (hmanual : wafResp.Mode ≠ AseAuto)
    (hact : tools.GetStringValue "rule_action" s.d = (action, none))
    (hval : env.validateActionAndConditionException action
      (tools.GetStringValue "condition_exception" s.d).1 = some err) :
    (op env s).1 = diag.FromErr err
      ∧ (op env s).2.d = s.d
      ∧ (newCalls s (op env s).2).filter Call.isUpdate = [] := by
  rcases hop with rfl | rfl
  · revert hmode
    unfold resourceRuleCreate
    simp only [getModifiableConfigVersion_d, record_d, hact, hval]
    repeat' split
    all_goals simp_all [newCalls, Call.isUpdate, Call.isUpdateRule,
      Call.isUpdateRuleConditionException]
    all_goals (rintro - rfl; contradiction)
  · revert hmode
    unfold resourceRuleUpdate
    simp only [getModifiableConfigVersion_d, record_d, hact, hval]
    repeat' split
    all_goals simp_all [newCalls, Call.isUpdate, Call.isUpdateRule,
      Call.isUpdateRuleConditionException]
    all_goals (rintro - rfl; contradiction)

set_option maxRecDepth 100000 in
theorem rejected_pair_issues_no_update_witness :
    (resourceRuleCreate rejectingEnv createState).1
        = diag.FromErr (.invalidAction "invalid combination")
      ∧ (resourceRuleCreate rejectingEnv createState).2.d = createState.d
      ∧ (newCalls createState (resourceRuleCreate rejectingEnv createState).2).filter
          Call.isUpdate = [] :=
  rejected_pair_issues_no_update resourceRuleCreate (Or.inl rfl) rejectingEnv createState
    "alert" (.invalidAction "invalid combination") ⟨43253, 8, "test_policy"⟩ ⟨"ASE_MANUAL"⟩
    (by decide) (by decide) (by decide) (by decide)

/-! ## Delete -/

/-- Among the calls of the modifiable-version resolver the mutating ones are
the version creations. -/
theorem versionCalls_filter_isMutating (env : Env) (c : Int) (k : String) (s : State) :
    (versionCalls env c k s).filter Call.isMutating
      = (versionCalls env c k s).filter Call.isCreateConfigurationVersion := by
  apply List.filter_congr
  intro e he
  have h := versionCalls_kind env c k s e he
  cases e <;> simp_all [Call.isVersionCall, Call.isMutating, Call.isUpdateRule,
    Call.isUpdateRuleConditionException, Call.isCreateConfigurationVersion]

/-- The modifiable-version resolver creates at most one version. -/
theorem versionCalls_creations_le_one (env : Env) (c : Int) (k : String) (s : State) :
    ((versionCalls env c k s).filter Call.isCreateConfigurationVersion).length ≤ 1 := by
  unfold versionCalls getModifiableConfigVersion
  simp only
  repeat' split
  all_goals simp [newCalls, State.record, Call.isCreateConfigurationVersion]

set_option maxRecDepth 100000 in
/-- C5, as stated, fails. The identifier `1:p:2` is well formed, yet a Delete
whose `GetWAFMode` call fails returns that error with no mutating request
issued; and on a configuration without a modifiable version a Delete in manual
mode issues two mutating requests, the version creation and the `UpdateRule`. -/
theorem delete_without_single_mutating_request :
    splitID updateState.d.Id 3 ruleIDHint = .ok ["1", "p", "2"]
      ∧ (resourceRuleDelete { okEnv AseAuto with client := modeFailingClient } updateState).1
          = diag.FromErr (.remote "boom")
      ∧ (newCalls updateState
          (resourceRuleDelete { okEnv AseAuto with client := modeFailingClient } updateState).2).filter
            Call.isMutating = []
      ∧ (newCalls updateState
          (resourceRuleDelete { okEnv AseAuto with client := publishedClient } updateState).2).filter
            Call.isMutating
          = [.CreateConfigurationVersion ⟨1, 7⟩ (.ok ⟨8⟩),
              .UpdateRule
                { ConfigID := 1, Version := 8, PolicyID := "p", RuleID := 2,
                  Action := "none", JsonPayloadRaw := "" } (.ok ⟨"none", none⟩)] := by
  decide

/-- C5, amended. For every well-formed rule ID a run of Delete issues exactly
one `GetWAFMode` call, for the version the modifiable-version resolver
returned.  If that call fails, Delete returns its error and issues no update
request.  If it answers, exactly one update request is issued, determined by
the mode: in automatic mode an `UpdateRuleConditionException` request carrying
only ConfigID, Version, PolicyID and RuleID, its Conditions, Exception and
AdvancedExceptionsList at their zero values; in any other mode an `UpdateRule`
request with Action `none` and an empty payload.  The list of update calls of
the run is that single call, so both are never issued.  The mutating requests
of the run are the version creation of the resolver, if it made one (at most
one), followed by the update calls. -/
theorem delete_update_determined_by_mode (env : Env) (s : State) (iDParts : List String)
    (configID ruleID : Int)
    (hsplit : splitID s.d.Id 3 ruleIDHint = .ok iDParts)
    (hconfig : strconv.Atoi (iDParts.getD 0 "") = .ok configID)
    (hrule : strconv.Atoi (iDParts.getD 2 "") = .ok ruleID) :
    ∃ wafRes,
      (newCalls s (resourceRuleDelete env s).2).filter Call.isGetWAFMode
          = [.GetWAFMode
              { ConfigID := configID,
                Version := (getModifiableConfigVersion env configID "rule" s).1,
                PolicyID := iDParts.getD 1 "" } wafRes]
        ∧ (∀ err, wafRes = .error err →
            (resourceRuleDelete env s).1 = diag.FromErr err
              ∧ (newCalls s (resourceRuleDelete env s).2).filter Call.isUpdate = [])
        ∧ (∀ wafmode, wafRes = .ok wafmode → wafmode.Mode = AseAuto →
            ∃ res, (newCalls s (resourceRuleDelete env s).2).filter Call.isUpdate
              = [.UpdateRuleConditionException
                  { ConfigID := configID,
                    Version := (getModifiableConfigVersion env configID "rule" s).1,
                    PolicyID := iDParts.getD 1 "", RuleID := ruleID, Conditions := none,
                    Exception := none, AdvancedExceptionsList := none } res])
        ∧ (∀ wafmode, wafRes = .ok wafmode → wafmode.Mode ≠ AseAuto →
            ∃ res, (newCalls s (resourceRuleDelete env s).2).filter Call.isUpdate
              = [.UpdateRule
                  { ConfigID := configID,
                    Version := (getModifiableConfigVersion env configID "rule" s).1,
                    PolicyID := iDParts.getD 1 "", RuleID := ruleID, Action := "none",
                    JsonPayloadRaw := "" } res])
        ∧ (newCalls s (resourceRuleDelete env s).2).filter Call.isMutating
            = (versionCalls env configID "rule" s).filter Call.isCreateConfigurationVersion
                ++ (newCalls s (resourceRuleDelete env s).2).filter Call.isUpdate
        ∧ ((versionCalls env configID "rule" s).filter
            Call.isCreateConfigurationVersion).length ≤ 1 := by
  refine ⟨env.client.GetWAFMode (getModifiableConfigVersion env configID "rule" s).2.trace
    { ConfigID := configID, Version := (getModifiableConfigVersion env configID "rule" s).1,
      PolicyID := iDParts.getD 1 "" }, ?_⟩
  have hle := versionCalls_creations_le_one env configID "rule" s
  unfold resourceRuleDelete
  simp only [getModifiableConfigVersion_d, record_d, hsplit, hconfig, hrule]
  repeat' split
  all_goals simp_all [newCalls, Call.isUpdate, Call.isUpdateRule,
    Call.isUpdateRuleConditionException, Call.isGetWAFMode, Call.isMutating,
    Call.isCreateConfigurationVersion, State.record, List.filter_append,
    versionCalls_filter_isMutating]

set_option maxRecDepth 100000 in
theorem delete_update_determined_by_mode_witness :
    splitID updateState.d.Id 3 ruleIDHint = .ok ["1", "p", "2"]
      ∧ ∃ res, (newCalls updateState
          (resourceRuleDelete (okEnv AseAuto) updateState).2).filter Call.isUpdate
        = [.UpdateRuleConditionException
            { ConfigID := 1, Version := 7, PolicyID := "p", RuleID := 2, Conditions := none,
              Exception := none, AdvancedExceptionsList := none } res] := by
  refine ⟨by decide, ?_⟩
  obtain ⟨wafRes, h1, -, h3, -⟩ :=
    delete_update_determined_by_mode (okEnv AseAuto) updateState ["1", "p", "2"] 1 2
      (by decide) (by decide) (by decide)
  have h : (newCalls updateState
      (resourceRuleDelete (okEnv AseAuto) updateState).2).filter Call.isGetWAFMode
        = [.GetWAFMode ⟨1, 7, "p"⟩ (.ok ⟨AseAuto⟩)] := by decide
  rw [h] at h1
  have hres : wafRes = .ok ⟨AseAuto⟩ := by
    injection h1 with h1 _
    injection h1 with _ h1
    exact h1.symm
  exact h3 ⟨AseAuto⟩ hres rfl

/-- C6. After every run of Delete the resource data are those from before the
call, with the identifier cleared exactly when Delete returned no error: on
an error (ID decode failure, `GetWAFMode` failure or failure of the update
call) the identifier is unchanged. -/
theorem delete_clears_id_iff_success (env : Env) (s : State) :
    (resourceRuleDelete env s).2.d
      = if (resourceRuleDelete env s).1.HasError then s.d else s.d.SetId "" := by
  unfold resourceRuleDelete
  simp only [getModifiableConfigVersion_d, record_d]
  repeat' split
  all_goals simp_all [Diagnostics.HasError, diag.FromErr]

/-! ## Create and Update -/

/-- C7. The create scenario: with config_id 43253, security_policy_id
`test_policy`, rule_id 12345 and rule_action `alert`, a policy in manual mode,
a validator that accepts the pair and a client whose `GetWAFMode` and
`UpdateRule` calls succeed, Create issues exactly one `UpdateRule` call, whose
request has those four values, issues no `UpdateRuleConditionException` call,
and leaves the identifier `43253:test_policy:12345`. -/
theorem create_scenario (env : Env) (s : State)
    (hconfig : tools.GetIntValue "config_id" s.d = (43253, none))
    (hpolicy : tools.GetStringValue "security_policy_id" s.d = ("test_policy", none))
    (hrule : tools.GetIntValue "rule_id" s.d = (12345, none))
    (haction : tools.GetStringValue "rule_action" s.d = ("alert", none))
    (hce : ∀ err, (tools.GetStringValue "condition_exception" s.d).2 = some err →
      err.isNotFound = true)
    (hval : env.validateActionAndConditionException "alert"
      (tools.GetStringValue "condition_exception" s.d).1 = none)
    (hmode : ∀ h req, ∃ resp, env.client.GetWAFMode h req = .ok resp ∧ resp.Mode ≠ AseAuto)
    (hupdate : ∀ h req, ∃ resp, env.client.UpdateRule h req = .ok resp) :
    (∃ req res,
        (newCalls s (resourceRuleCreate env s).2).filter Call.isUpdateRule
          = [.UpdateRule req res]
        ∧ req.ConfigID = 43253 ∧ req.PolicyID = "test_policy" ∧ req.RuleID = 12345
        ∧ req.Action = "alert")
      ∧ (newCalls s (resourceRuleCreate env s).2).filter
          Call.isUpdateRuleConditionException = []
      ∧ (resourceRuleCreate env s).2.d.id = "43253:test_policy:12345" := by
  choose mode hmode hmanual using hmode
  choose updated hupdate using hupdate
  have hfilter : (tools.GetStringValue "condition_exception" s.d).2.filter
      (fun err => !err.isNotFound) = none := by
    cases h : (tools.GetStringValue "condition_exception" s.d).2 with
    | none => rfl
    | some err => simp [Option.filter, hce err h]
  have hid : fmt.Sprintf_d_s_d 43253 "test_policy" 12345 = "43253:test_policy:12345" := by
    decide
  unfold resourceRuleCreate
  simp only [getModifiableConfigVersion_d, record_d, hconfig, hpolicy, hrule, haction, hval,
    hfilter, hmode, hupdate, hmanual, if_false, resourceRuleRead_id, ResourceData.SetId, hid]
  simp [newCalls, Call.isUpdateRule, Call.isUpdateRuleConditionException]

set_option maxRecDepth 100000 in
theorem create_scenario_witness :
    (newCalls createState (resourceRuleCreate (okEnv "ASE_MANUAL") createState).2).filter
        Call.isUpdateRuleConditionException = []
      ∧ (resourceRuleCreate (okEnv "ASE_MANUAL") createState).2.d.id
        = "43253:test_policy:12345" :=
  (create_scenario (okEnv "ASE_MANUAL") createState (by decide) (by decide) (by decide)
    (by decide)
    (fun err h => by
      have hlookup : (tools.GetStringValue "condition_exception" createState.d).2
          = some (.notFound "condition_exception") := by decide
      rw [hlookup] at h
      cases h
      rfl)
    (by decide)
    (fun _ _ => ⟨⟨"ASE_MANUAL"⟩, rfl, by decide⟩)
    (fun _ req => ⟨⟨req.Action, none⟩, rfl⟩)).2

/-- C8. In every run of Create or Update in which `GetWAFMode` answers a mode
other than automatic and the validator accepts the pair, exactly one
`UpdateRule` call is issued; its Action is the rule_action attribute and its
JsonPayloadRaw is the condition_exception attribute string itself (empty when
the attribute is empty or absent). The JSON functions of the environment are
arbitrary here, so the payload is neither parsed nor re-serialised. -/
theorem manual_update_carries_action_and_raw_payload
    (op : Env → State → Diagnostics × State)
    (hop : op = resourceRuleCreate ∨ op = resourceRuleUpdate)
    (env : Env) (s : State) (action : String)
    (wafReq : GetWAFModeRequest) (wafResp : GetWAFModeResponse)
    (hmode : Call.GetWAFMode wafReq (.ok wafResp) ∈ newCalls s (op env s).2)
    (hmanual : wafResp.Mode ≠ AseAuto)
    (hact : tools.GetStringValue "rule_action" s.d = (action, none))
    (hval : env.validateActionAndConditionException action
      (tools.GetStringValue "condition_exception" s.d).1 = none) :
    ∃ req res,
      (newCalls s (op env s).2).filter Call.isUpdate = [.UpdateRule req res]
        ∧ req.Action = action
        ∧ req.JsonPayloadRaw = (tools.GetStringValue "condition_exception" s.d).1 := by
  rcases hop with rfl | rfl
  · revert hmode
    unfold resourceRuleCreate
    simp only [getModifiableConfigVersion_d, record_d, hact, hval]
    repeat' split
    all_goals simp_all [newCalls, Call.isUpdate, Call.isUpdateRule,
      Call.isUpdateRuleConditionException]
    all_goals (rintro - rfl; contradiction)
  · revert hmode
    unfold resourceRuleUpdate
    simp only [getModifiableConfigVersion_d, record_d, hact, hval]
    repeat' split
    all_goals simp_all [newCalls, Call.isUpdate, Call.isUpdateRule,
      Call.isUpdateRuleConditionException]
    all_goals (rintro - rfl; contradiction)

set_option maxRecDepth 100000 in
theorem manual_update_carries_action_and_raw_payload_witness :
    ∃ req res,
      (newCalls updateState (resourceRuleUpdate (okEnv "ASE_MANUAL") updateState).2).filter
          Call.isUpdate = [.UpdateRule req res]
        ∧ req.Action = "alert"
        ∧ req.JsonPayloadRaw = (tools.GetStringValue "condition_exception" updateState.d).1 :=
  manual_update_carries_action_and_raw_payload resourceRuleUpdate (Or.inr rfl)
    (okEnv "ASE_MANUAL") updateState "alert" ⟨1, 7, "p"⟩ ⟨"ASE_MANUAL"⟩
    (by decide) (by decide) (by decide) (by decide)

/-- The same environment with another `json.Unmarshal`. -/
theorem resourceRuleRead_jsonUnmarshal (env : Env)
    (f : String → Except GoError RuleConditionException) (s : State) :
    resourceRuleRead { env with jsonUnmarshal := f } s = resourceRuleRead env s := rfl

theorem getModifiableConfigVersion_jsonUnmarshal (env : Env)
    (f : String → Except GoError RuleConditionException) (c : Int) (k : String) (s : State) :
    getModifiableConfigVersion { env with jsonUnmarshal := f } c k s
      = getModifiableConfigVersion env c k s := rfl

/-- C9. In every run of Create or Update in which `GetWAFMode` answers the
automatic mode and condition_exception is the empty string, exactly one
`UpdateRuleConditionException` call is issued, with Conditions, Exception and
AdvancedExceptionsList at the zero values of a default
`RuleConditionException`; and no JSON parse is attempted: the run is the same
whatever `json.Unmarshal` would answer, so it cannot fail with a parse error. -/
theorem auto_empty_exception_skips_parse
    (op : Env → State → Diagnostics × State)
    (hop : op = resourceRuleCreate ∨ op = resourceRuleUpdate)
    (env : Env) (s : State)
    (wafReq : GetWAFModeRequest) (wafResp : GetWAFModeResponse)
    (hmode : Call.GetWAFMode wafReq (.ok wafResp) ∈ newCalls s (op env s).2)
    (hauto : wafResp.Mode = AseAuto)
    (hce : (tools.GetStringValue "condition_exception" s.d).1 = "") :
    (∃ req res,
        (newCalls s (op env s).2).filter Call.isUpdate
          = [.UpdateRuleConditionException req res]
        ∧ req.Conditions = none ∧ req.Exception = none ∧ req.AdvancedExceptionsList = none)
      ∧ ∀ f, op { env with jsonUnmarshal := f } s = op env s := by
  rcases hop with rfl | rfl
  · constructor
    · revert hmode
      unfold resourceRuleCreate
      simp only [getModifiableConfigVersion_d, record_d, hce]
      repeat' split
      all_goals simp_all [newCalls, Call.isUpdate, Call.isUpdateRule,
        Call.isUpdateRuleConditionException]
      all_goals (rintro - rfl; first | contradiction | (subst_vars; exact ⟨rfl, rfl, rfl⟩))
    · intro f
      unfold resourceRuleCreate
      simp only [getModifiableConfigVersion_d, record_d, hce,
        getModifiableConfigVersion_jsonUnmarshal, resourceRuleRead_jsonUnmarshal,
        ne_eq, not_true_eq_false, if_false]
  · constructor
    · revert hmode
      unfold resourceRuleUpdate
      simp only [getModifiableConfigVersion_d, record_d, hce]
      repeat' split
      all_goals simp_all [newCalls, Call.isUpdate, Call.isUpdateRule,
        Call.isUpdateRuleConditionException]
      all_goals (rintro - rfl; first | contradiction | (subst_vars; exact ⟨rfl, rfl, rfl⟩))
    · intro f
      unfold resourceRuleUpdate
      simp only [getModifiableConfigVersion_d, record_d, hce,
        getModifiableConfigVersion_jsonUnmarshal, resourceRuleRead_jsonUnmarshal,
        ne_eq, not_true_eq_false, if_false]

set_option maxRecDepth 100000 in
theorem auto_empty_exception_skips_parse_witness :
    (∃ req res,
        (newCalls createState (resourceRuleCreate (okEnv AseAuto) createState).2).filter
            Call.isUpdate = [.UpdateRuleConditionException req res]
        ∧ req.Conditions = none ∧ req.Exception = none ∧ req.AdvancedExceptionsList = none)
      ∧ ∀ f, resourceRuleCreate { okEnv AseAuto with jsonUnmarshal := f } createState
          = resourceRuleCreate (okEnv AseAuto) createState :=
  auto_empty_exception_skips_parse resourceRuleCreate (Or.inl rfl) (okEnv AseAuto) createState
    ⟨43253, 7, "test_policy"⟩ ⟨AseAuto⟩ (by decide) (by decide) (by decide)

/-! ## Independence of the automatic branch from rule_action -/

theorem Set_eq_error_iff (d : ResourceData) (k : String) (v : Value) (e : GoError) :
    d.Set k v = .error e ↔ ∃ msg, d.setFailures.lookup k = some msg ∧ e = .set msg := by
  unfold ResourceData.Set
  split
  · rename_i msg h
    simp [h, eq_comm]
  · rename_i h
    simp [h]

/-- The modifiable-version resolver looks at the state only through the trace. -/
theorem getModifiableConfigVersion_congr (env : Env) (c : Int) (k : String) (s s1 : State)
    (h : s1.trace = s.trace) :
    (getModifiableConfigVersion env c k s1).1 = (getModifiableConfigVersion env c k s).1
      ∧ versionCalls env c k s1 = versionCalls env c k s := by
  have key : (getModifiableConfigVersion env c k s1).1 = (getModifiableConfigVersion env c k s).1
      ∧ (getModifiableConfigVersion env c k s1).2.trace
        = (getModifiableConfigVersion env c k s).2.trace := by
    unfold getModifiableConfigVersion
    simp only [State.record, h]
    repeat' split
    all_goals simp_all
  refine ⟨key.1, ?_⟩
  have h2 := key.2
  simp only [getModifiableConfigVersion_trace_eq, h] at h2
  exact List.append_cancel_left h2

/-- The latest-version resolver looks at the state only through the trace. -/
theorem getLatestConfigVersion_fst_congr (env : Env) (c : Int) (s s1 : State)
    (h : s1.trace = s.trace) :
    (getLatestConfigVersion env c s1).1 = (getLatestConfigVersion env c s).1 := by
  unfold getLatestConfigVersion
  simp only [h]
  split <;> rfl

/-- Read looks at the state only through the identifier, the trace and the
attributes on which `d.Set` fails. -/
theorem resourceRuleRead_congr (env : Env) (s s1 : State)
    (hid : s1.d.id = s.d.id) (hset : s1.d.setFailures = s.d.setFailures)
    (htrace : s1.trace = s.trace) :
    (resourceRuleRead env s1).1 = (resourceRuleRead env s).1
      ∧ (resourceRuleRead env s1).2.trace = (resourceRuleRead env s).2.trace := by
  have hv : ∀ c, (getLatestConfigVersion env c s1).1 = (getLatestConfigVersion env c s).1 :=
    fun c => getLatestConfigVersion_fst_congr env c s s1 htrace
  unfold resourceRuleRead
  simp only [ResourceData.Id, hid, hv, getLatestConfigVersion_trace, getLatestConfigVersion_d,
    record_trace, record_d, htrace, ResourceData.Set, hset]
  cases h1 : splitID s.d.id 3 ruleIDHint with
  | error e => simp [htrace]
  | ok parts =>
  simp only []
  cases h2 : strconv.Atoi (parts.getD 0 "") with
  | error e => simp [htrace]
  | ok c =>
  simp only []
  cases h3 : strconv.Atoi (parts.getD 2 "") with
  | error e => simp [getLatestConfigVersion_trace, htrace]
  | ok r =>
  simp only []
  cases h4 : env.client.GetRule
      (s.trace ++ [Call.GetConfiguration ⟨c⟩ (env.client.GetConfiguration s.trace ⟨c⟩)])
      ⟨c, (getLatestConfigVersion env c s).1, parts.getD 1 "", r⟩ with
  | error e => simp [getLatestConfigVersion_trace, htrace]
  | ok rule =>
  simp only []
  cases h5 : List.lookup "config_id" s.d.setFailures with
  | some msg => simp [getLatestConfigVersion_trace, htrace]
  | none =>
  simp only [hset]
  cases h6 : List.lookup "security_policy_id" s.d.setFailures with
  | some msg => simp [getLatestConfigVersion_trace, htrace]
  | none =>
  simp only [hset]
  cases h7 : List.lookup "rule_id" s.d.setFailures with
  | some msg => simp [getLatestConfigVersion_trace, htrace]
  | none =>
  simp only [hset]
  cases h8 : List.lookup "rule_action" s.d.setFailures with
  | some msg => simp [getLatestConfigVersion_trace, htrace]
  | none =>
  simp only [hset]
  cases h9 : rule.IsEmptyConditionException with
  | true => simp
  | false =>
  simp only [Bool.not_false, if_true]
  cases h10 : env.jsonMarshal (rule.ConditionException.getD {}) with
  | error e => simp
  | ok body =>
  simp only []
  cases h11 : List.lookup "condition_exception" s.d.setFailures with
  | some msg => simp
  | none => simp


theorem readCalls_congr (env : Env) (s s1 : State)
    (hid : s1.d.id = s.d.id) (hset : s1.d.setFailures = s.d.setFailures)
    (htrace : s1.trace = s.trace) :
    readCalls env s1 = readCalls env s := by
  have h := (resourceRuleRead_congr env s s1 hid hset htrace).2
  simp only [resourceRuleRead_trace_eq, htrace] at h
  exact List.append_cancel_left h

theorem GetIntValue_congr (key : String) (d d1 : ResourceData)
    (h : d1.attrs.lookup key = d.attrs.lookup key) :
    tools.GetIntValue key d1 = tools.GetIntValue key d := by
  unfold tools.GetIntValue
  rw [h]

theorem GetStringValue_congr (key : String) (d d1 : ResourceData)
    (h : d1.attrs.lookup key = d.attrs.lookup key) :
    tools.GetStringValue key d1 = tools.GetStringValue key d := by
  unfold tools.GetStringValue
  rw [h]

/-- C10. In automatic mode rule_action is read-only. Take two runs of Create
(or of Update) with the same environment, from states that agree on the
identifier, the trace, the failing `d.Set` attributes and every attribute
other than rule_action, the first of which sees `GetWAFMode` answer the
automatic mode. Then both runs return the same diagnostics, issue the same
sequence of facade calls with the same requests and answers, and leave the
same identifier: nothing depends on rule_action, be it missing or one the
validator would reject. -/
theorem auto_run_ignores_rule_action
    (op : Env → State → Diagnostics × State)
    (hop : op = resourceRuleCreate ∨ op = resourceRuleUpdate)
    (env : Env) (s s1 : State)
    (wafReq : GetWAFModeRequest) (wafResp : GetWAFModeResponse)
    (hid : s1.d.id = s.d.id) (hset : s1.d.setFailures = s.d.setFailures)
    (htrace : s1.trace = s.trace)
    (hattrs : ∀ key, key ≠ "rule_action" → s1.d.attrs.lookup key = s.d.attrs.lookup key)
    (hmode : Call.GetWAFMode wafReq (.ok wafResp) ∈ newCalls s (op env s).2)
    (hauto : wafResp.Mode = AseAuto) :
    (op env s1).1 = (op env s).1
      ∧ newCalls s1 (op env s1).2 = newCalls s (op env s).2
      ∧ (op env s1).2.d.id = (op env s).2.d.id := by
  have hconfig := GetIntValue_congr "config_id" s.d s1.d (hattrs _ (by decide))
  have hpolicy := GetStringValue_congr "security_policy_id" s.d s1.d (hattrs _ (by decide))
  have hrule := GetIntValue_congr "rule_id" s.d s1.d (hattrs _ (by decide))
  have hce := GetStringValue_congr "condition_exception" s.d s1.d (hattrs _ (by decide))
  have hv1 : ∀ c, (getModifiableConfigVersion env c "rule" s1).1
      = (getModifiableConfigVersion env c "rule" s).1 :=
    fun c => (getModifiableConfigVersion_congr env c "rule" s s1 htrace).1
  have hv2 : ∀ c, versionCalls env c "rule" s1 = versionCalls env c "rule" s :=
    fun c => (getModifiableConfigVersion_congr env c "rule" s s1 htrace).2
  rcases hop with rfl | rfl
  · revert hmode
    unfold resourceRuleCreate
    simp only [getModifiableConfigVersion_d, record_d, record_trace,
      getModifiableConfigVersion_trace_eq, hconfig, hpolicy, hrule, hce, hv1, hv2, htrace]
    rcases h1 : tools.GetIntValue "config_id" s.d with ⟨configID, _ | err⟩
    swap
    · simp [newCalls, htrace, hid]
    simp only []
    rcases h2 : tools.GetStringValue "security_policy_id" s.d with ⟨policyID, _ | err⟩
    swap
    · simp [newCalls, htrace, hv2, hid]
    simp only []
    rcases h3 : tools.GetIntValue "rule_id" s.d with ⟨ruleID, _ | err⟩
    swap
    · simp [newCalls, htrace, hv2, hid]
    simp only []
    cases h4 : Option.filter (fun err => !err.isNotFound)
        (tools.GetStringValue "condition_exception" s.d).2 with
    | some err => simp [newCalls, htrace, hv2, hid]
    | none =>
    simp only []
    cases h5 : env.client.GetWAFMode (s.trace ++ versionCalls env configID "rule" s)
        ⟨configID, (getModifiableConfigVersion env configID "rule" s).1, policyID⟩ with
    | error err => simp [newCalls, htrace, hv2, hid]
    | ok wafmode =>
    simp only []
    by_cases hm : wafmode.Mode = AseAuto
    · simp only [hm, if_true]
      generalize (if (tools.GetStringValue "condition_exception" s.d).1 ≠ "" then
          env.jsonUnmarshal (tools.GetStringValue "condition_exception" s.d).1
        else (Except.ok {} : Except GoError RuleConditionException)) = parsed
      cases parsed with
      | error err => simp [newCalls, htrace, hv2, hid]
      | ok rce =>
      simp only []
      split
      · simp [newCalls, htrace, hv2, hid]
      · intro _
        refine ⟨(resourceRuleRead_congr env _ _ ?_ ?_ ?_).1, ?_, ?_⟩
        · rfl
        · exact hset
        · rfl
        · simp only [newCalls, htrace]
          congr 1
          refine (resourceRuleRead_congr env _ _ ?_ ?_ ?_).2
          · rfl
          · exact hset
          · rfl
        · simp only [resourceRuleRead_id]
          rfl
    · intro hmode
      exfalso
      revert hmode
      simp only [hm, if_false]
      repeat' split
      all_goals simp_all [newCalls]
      all_goals (rintro - rfl; contradiction)
  · revert hmode
    unfold resourceRuleUpdate
    simp only [getModifiableConfigVersion_d, record_d, record_trace,
      getModifiableConfigVersion_trace_eq, ResourceData.Id, hid, hce, hv1, hv2, htrace]
    cases h1 : splitID s.d.id 3 ruleIDHint with
    | error err => simp [newCalls, htrace, hid]
    | ok iDParts =>
    simp only []
    cases h2 : strconv.Atoi (iDParts.getD 0 "") with
    | error err => simp [newCalls, htrace, hid]
    | ok configID =>
    simp only []
    cases h3 : strconv.Atoi (iDParts.getD 2 "") with
    | error err => simp [newCalls, htrace, hv2, hid]
    | ok ruleID =>
    simp only []
    cases h4 : Option.filter (fun err => !err.isNotFound)
        (tools.GetStringValue "condition_exception" s.d).2 with
    | some err => simp [newCalls, htrace, hv2, hid]
    | none =>
    simp only []
    cases h5 : env.client.GetWAFMode (s.trace ++ versionCalls env configID "rule" s)
        ⟨configID, (getModifiableConfigVersion env configID "rule" s).1,
          iDParts.getD 1 ""⟩ with
    | error err => simp [newCalls, htrace, hv2, hid]
    | ok wafmode =>
    simp only []
    by_cases hm : wafmode.Mode = AseAuto
    · simp only [hm, if_true]
      generalize (if (tools.GetStringValue "condition_exception" s.d).1 ≠ "" then
          env.jsonUnmarshal (tools.GetStringValue "condition_exception" s.d).1
        else (Except.ok {} : Except GoError RuleConditionException)) = parsed
      cases parsed with
      | error err => simp [newCalls, htrace, hv2, hid]
      | ok rce =>
      simp only []
      split
      · simp [newCalls, htrace, hv2, hid]
      · intro _
        have hd : ∀ (a b : Call),
            (((getModifiableConfigVersion env configID "rule" s1).2.record a).record b).d = s1.d :=
          fun _ _ => by simp only [record_d, getModifiableConfigVersion_d]
        have hd0 : ∀ (a b : Call),
            (((getModifiableConfigVersion env configID "rule" s).2.record a).record b).d = s.d :=
          fun _ _ => by simp only [record_d, getModifiableConfigVersion_d]
        have ht : ∀ (a b : Call),
            (((getModifiableConfigVersion env configID "rule" s1).2.record a).record b).trace
              = (((getModifiableConfigVersion env configID "rule" s).2.record a).record b).trace :=
          fun _ _ => by
            simp only [record_trace, getModifiableConfigVersion_trace_eq, hv2, htrace]
        refine ⟨(resourceRuleRead_congr env _ _ ?_ ?_ ?_).1, ?_, ?_⟩
        · rw [hd, hd0]; exact hid
        · rw [hd, hd0]; exact hset
        · exact ht _ _
        · simp only [newCalls, htrace]
          congr 1
          refine (resourceRuleRead_congr env _ _ ?_ ?_ ?_).2
          · rw [hd, hd0]; exact hid
          · rw [hd, hd0]; exact hset
          · exact ht _ _
        · simp only [resourceRuleRead_id, record_d, getModifiableConfigVersion_d]
          exact hid
    · intro hmode
      exfalso
      revert hmode
      simp only [hm, if_false]
      repeat' split
      all_goals simp_all [newCalls]
      all_goals (rintro - rfl; contradiction)


set_option maxRecDepth 100000 in
theorem auto_run_ignores_rule_action_witness :
    (resourceRuleUpdate { rejectingEnv with client := okClient AseAuto }
        ⟨⟨"1:p:2", [("condition_exception", .str "ce")], []⟩, []⟩).1 = []
      ∧ (resourceRuleUpdate { rejectingEnv with client := okClient AseAuto }
          ⟨⟨"1:p:2", [("condition_exception", .str "ce")], []⟩, []⟩).1
        = (resourceRuleUpdate { rejectingEnv with client := okClient AseAuto } updateState).1
      ∧ newCalls ⟨⟨"1:p:2", [("condition_exception", .str "ce")], []⟩, []⟩
          (resourceRuleUpdate { rejectingEnv with client := okClient AseAuto }
            ⟨⟨"1:p:2", [("condition_exception", .str "ce")], []⟩, []⟩).2
        = newCalls updateState
          (resourceRuleUpdate { rejectingEnv with client := okClient AseAuto } updateState).2 :=
  ⟨by decide,
    (auto_run_ignores_rule_action resourceRuleUpdate (Or.inr rfl)
      { rejectingEnv with client := okClient AseAuto } updateState
      ⟨⟨"1:p:2", [("condition_exception", .str "ce")], []⟩, []⟩
      ⟨1, 7, "p"⟩ ⟨AseAuto⟩ rfl rfl rfl
      (fun key hkey => by
        simp only [updateState, List.lookup]
        have h1 : (key == "rule_action") = false := by simpa using hkey
        cases h2 : (key == "condition_exception") <;> simp [h1])
      (by decide) (by decide)).1,
    (auto_run_ignores_rule_action resourceRuleUpdate (Or.inr rfl)
      { rejectingEnv with client := okClient AseAuto } updateState
      ⟨⟨"1:p:2", [("condition_exception", .str "ce")], []⟩, []⟩
      ⟨1, 7, "p"⟩ ⟨AseAuto⟩ rfl rfl rfl
      (fun key hkey => by
        simp only [updateState, List.lookup]
        have h1 : (key == "rule_action") = false := by simpa using hkey
        cases h2 : (key == "condition_exception") <;> simp [h1])
      (by decide) (by decide)).2.1⟩

/-! ## Versions on the write and read paths -/

/-- Mapping a list through a partial observation that none of its members
has leaves nothing. -/
theorem filterMap_eq_nil_of_kind {α : Type} (l : List Call) (k : Call → Bool)
    (f : Call → Option α)
    (hk : ∀ e ∈ l, k e = true) (hkf : ∀ e, k e = true → f e = none) :
    l.filterMap f = [] := by
  induction l with
  | nil => rfl
  | cons e l ih =>
    have he : f e = none := hkf e (hk e (List.mem_cons_self _ _))
    simp only [List.filterMap_cons, he]
    exact ih (fun x hx => hk x (List.mem_cons_of_mem _ hx))

@[simp] theorem versionCalls_filterMap_writeVersion (env : Env) (c : Int) (k : String)
    (s : State) : (versionCalls env c k s).filterMap Call.writeVersion = [] :=
  filterMap_eq_nil_of_kind _ _ _ (versionCalls_kind env c k s)
    (by intro e; cases e <;> simp [Call.isVersionCall, Call.writeVersion])

@[simp] theorem readCalls_filterMap_writeVersion (env : Env) (s : State) :
    (readCalls env s).filterMap Call.writeVersion = [] :=
  filterMap_eq_nil_of_kind _ _ _ (readCalls_kind env s)
    (by intro e; cases e <;> simp [Call.isReadCall, Call.writeVersion])

/-- C11. On every write path the Version of the `GetWAFMode` request and of
the update request (`UpdateRule` or `UpdateRuleConditionException`) is the
value `getModifiableConfigVersion` returned for the configuration and the
resource kind `rule`: for Create with the config_id attribute, for Update and
Delete with the configID decoded from the identifier. The Version of the
`GetRule` request of Read is the value `getLatestConfigVersion` returned. -/
theorem write_paths_use_modifiable_version (env : Env) (s : State) :
    (∀ v ∈ (newCalls s (resourceRuleCreate env s).2).filterMap Call.writeVersion,
        v = (getModifiableConfigVersion env (tools.GetIntValue "config_id" s.d).1 "rule" s).1)
      ∧ ∀ iDParts configID, splitID s.d.Id 3 ruleIDHint = .ok iDParts →
          strconv.Atoi (iDParts.getD 0 "") = .ok configID →
        (∀ v ∈ (newCalls s (resourceRuleUpdate env s).2).filterMap Call.writeVersion,
            v = (getModifiableConfigVersion env configID "rule" s).1)
          ∧ (∀ v ∈ (newCalls s (resourceRuleDelete env s).2).filterMap Call.writeVersion,
            v = (getModifiableConfigVersion env configID "rule" s).1)
          ∧ (∀ v ∈ (newCalls s (resourceRuleRead env s).2).filterMap Call.readVersion,
            v = (getLatestConfigVersion env configID s).1) := by
  refine ⟨?_, ?_⟩
  · unfold resourceRuleCreate
    simp only [getModifiableConfigVersion_d, record_d]
    repeat' split
    all_goals simp_all [newCalls, Call.writeVersion]
  · intro iDParts configID hsplit hconfig
    refine ⟨?_, ?_, ?_⟩
    · unfold resourceRuleUpdate
      simp only [getModifiableConfigVersion_d, record_d, hsplit, hconfig]
      repeat' split
      all_goals simp_all [newCalls, Call.writeVersion]
    · unfold resourceRuleDelete
      simp only [getModifiableConfigVersion_d, record_d, hsplit, hconfig]
      repeat' split
      all_goals simp_all [newCalls, Call.writeVersion]
    · unfold resourceRuleRead
      simp only [getLatestConfigVersion_d, record_d, hsplit, hconfig]
      repeat' split
      all_goals simp_all [newCalls, Call.readVersion, getLatestConfigVersion_trace]

set_option maxRecDepth 100000 in
theorem write_paths_use_modifiable_version_witness :
    (newCalls createState
        (resourceRuleCreate { okEnv "ASE_MANUAL" with client := publishedClient }
          createState).2).filterMap Call.writeVersion = [8, 8]
      ∧ (newCalls updateState
        (resourceRuleRead { okEnv "ASE_MANUAL" with client := publishedClient }
          updateState).2).filterMap Call.readVersion = [7]
      ∧ ∀ v ∈ (newCalls createState
        (resourceRuleCreate { okEnv "ASE_MANUAL" with client := publishedClient }
          createState).2).filterMap Call.writeVersion,
        v = (getModifiableConfigVersion { okEnv "ASE_MANUAL" with client := publishedClient }
          (tools.GetIntValue "config_id" createState.d).1 "rule" createState).1 :=
  ⟨by decide, by decide,
    (write_paths_use_modifiable_version { okEnv "ASE_MANUAL" with client := publishedClient }
      createState).1⟩

/-! ## Failure of the latest-version lookup -/

/-- The data source aborts on a failed version lookup: it returns the lookup
error and the only call made is the configuration query. -/
theorem dataSource_aborts_on_failed_version_lookup (env : Env)
    (RenderTemplates : String → GetCustomRuleActionsResponse → Except GoError String)
    (s : State) (configID : Int) (err : GoError)
    (hconfig : tools.GetIntValue "config_id" s.d = (configID, none))
    (hfail : env.client.GetConfiguration s.trace ⟨configID⟩ = .error err) :
    dataSourceCustomRuleActionsRead env RenderTemplates s
      = (diag.FromErr err, s.record (.GetConfiguration ⟨configID⟩ (.error err))) := by
  unfold dataSourceCustomRuleActionsRead
  simp only [hconfig, getLatestConfigVersionWithError, hfail]

set_option maxRecDepth 100000 in
/-- C12 at its failing input. The identifier is `1:p:2`, the configuration
query behind `getLatestConfigVersion` fails and `GetRule` succeeds: Read gets
no error from the resolver, goes on to call `GetRule` with the zero-value
version and returns no diagnostic. On the same client the data source returns
the lookup error and does not call `GetCustomRuleActions`. -/
theorem read_proceeds_after_failed_version_lookup :
    resourceRuleRead { okEnv AseAuto with client := lookupFailingClient }
        ⟨⟨"1:p:2", [], []⟩, []⟩
      = ([], ⟨⟨"1:p:2", [("rule_action", .str "alert"), ("rule_id", .int 2),
            ("security_policy_id", .str "p"), ("config_id", .int 1)], []⟩,
          [.GetConfiguration ⟨1⟩ (.error (.remote "lookup failed")),
            .GetRule ⟨1, 0, "p", 2⟩ (.ok ⟨"alert", none⟩)]⟩)
      ∧ dataSourceCustomRuleActionsRead { okEnv AseAuto with client := lookupFailingClient }
          rawRenderer dataSourceState
        = (diag.FromErr (.remote "lookup failed"),
          ⟨dataSourceState.d,
            [.GetConfiguration ⟨43253⟩ (.error (.remote "lookup failed"))]⟩) := by
  decide

/-! ## The identifier after Create -/

/-- Testing a list for a kind of call none of its members has fails. -/
theorem any_eq_false_of_kind (l : List Call) (k p : Call → Bool)
    (hk : ∀ e ∈ l, k e = true) (hkp : ∀ e, k e = true → p e = false) :
    l.any p = false := by
  rw [List.any_eq_false]
  intro e he
  simp [hkp e (hk e he)]

@[simp] theorem versionCalls_any_isSuccessfulUpdate (env : Env) (c : Int) (k : String)
    (s : State) : (versionCalls env c k s).any Call.isSuccessfulUpdate = false :=
  any_eq_false_of_kind _ _ _ (versionCalls_kind env c k s)
    (by intro e; cases e <;> simp [Call.isVersionCall, Call.isSuccessfulUpdate])

@[simp] theorem readCalls_any_isSuccessfulUpdate (env : Env) (s : State) :
    (readCalls env s).any Call.isSuccessfulUpdate = false :=
  any_eq_false_of_kind _ _ _ (readCalls_kind env s)
    (by intro e; cases e <;> simp [Call.isReadCall, Call.isSuccessfulUpdate])

set_option maxRecDepth 100000 in
/-- C13, as stated, fails. The update succeeds and the `GetRule` call of the
delegated Read fails: Create returns an error, and the identifier, unset
before, is the encoded composite ID. -/
theorem create_error_with_id_set :
    createState.d.id = ""
      ∧ (resourceRuleCreate { okEnv "ASE_MANUAL" with client := readFailingClient }
          createState).1 = diag.FromErr (.remote "rule not readable")
      ∧ (resourceRuleCreate { okEnv "ASE_MANUAL" with client := readFailingClient }
          createState).2.d.id = "43253:test_policy:12345" := by
  decide

/-- C13, amended. After every run of Create the identifier is the encoded
composite ID exactly when the update call of the run succeeded, and is
otherwise what it was before; a run that returns no error has had its update
succeed, so its identifier is set. The identifier is set before the delegated
Read, whose failure leaves it set. -/
theorem create_sets_id_iff_update_succeeded (env : Env) (s : State) :
    ((newCalls s (resourceRuleCreate env s).2).any Call.isSuccessfulUpdate = true →
        (resourceRuleCreate env s).2.d.id
          = fmt.Sprintf_d_s_d (tools.GetIntValue "config_id" s.d).1
              (tools.GetStringValue "security_policy_id" s.d).1
              (tools.GetIntValue "rule_id" s.d).1)
      ∧ ((newCalls s (resourceRuleCreate env s).2).any Call.isSuccessfulUpdate = false →
        (resourceRuleCreate env s).2.d.id = s.d.id)
      ∧ ((resourceRuleCreate env s).1 = [] →
          (newCalls s (resourceRuleCreate env s).2).any Call.isSuccessfulUpdate = true) := by
  unfold resourceRuleCreate
  simp only [getModifiableConfigVersion_d, record_d]
  repeat' split
  all_goals simp_all [newCalls, Call.isSuccessfulUpdate, resourceRuleRead_id, diag.FromErr,
    ResourceData.SetId]

set_option maxRecDepth 100000 in
theorem create_sets_id_iff_update_succeeded_witness :
    (newCalls createState
        (resourceRuleCreate { okEnv "ASE_MANUAL" with client := readFailingClient }
          createState).2).any Call.isSuccessfulUpdate = true
      ∧ (resourceRuleCreate { okEnv "ASE_MANUAL" with client := readFailingClient }
          createState).2.d.id
        = fmt.Sprintf_d_s_d (tools.GetIntValue "config_id" createState.d).1
            (tools.GetStringValue "security_policy_id" createState.d).1
            (tools.GetIntValue "rule_id" createState.d).1 :=
  ⟨by decide,
    (create_sets_id_iff_update_succeeded { okEnv "ASE_MANUAL" with client := readFailingClient }
      createState).1 (by decide)⟩

/-! ## What Read writes -/

set_option maxRecDepth 100000 in
/-- C14, as stated, fails. The response of `GetRule` has an empty condition
exception and Read succeeds, yet condition_exception still holds the value
from before the call: Read did not write it. -/
theorem read_leaves_condition_exception_when_empty :
    (resourceRuleRead (okEnv AseAuto) updateState).1 = []
      ∧ Call.GetRule ⟨1, 7, "p", 2⟩ (.ok ⟨"alert", none⟩)
          ∈ newCalls updateState (resourceRuleRead (okEnv AseAuto) updateState).2
      ∧ updateState.d.attrs.lookup "condition_exception" = some (.str "ce")
      ∧ (resourceRuleRead (okEnv AseAuto) updateState).2.d.attrs.lookup "condition_exception"
          = some (.str "ce") := by
  decide

/-- C14, amended. After every successful run of Read, config_id,
security_policy_id and rule_id hold the values decoded from the identifier
(the fields of the `GetRule` request), rule_action holds the Action of the
response, and condition_exception holds the JSON rendering of the condition
exception of the response when that is not empty; when it is empty,
condition_exception is not written and keeps its value from before. -/
theorem read_populates_attributes (env : Env) (s : State)
    (hok : (resourceRuleRead env s).1 = []) :
    ∃ iDParts configID ruleID version rule,
      splitID s.d.Id 3 ruleIDHint = .ok iDParts
        ∧ strconv.Atoi (iDParts.getD 0 "") = .ok configID
        ∧ strconv.Atoi (iDParts.getD 2 "") = .ok ruleID
        ∧ Call.GetRule ⟨configID, version, iDParts.getD 1 "", ruleID⟩ (.ok rule)
            ∈ newCalls s (resourceRuleRead env s).2
        ∧ (resourceRuleRead env s).2.d.attrs.lookup "config_id" = some (.int configID)
        ∧ (resourceRuleRead env s).2.d.attrs.lookup "security_policy_id"
            = some (.str (iDParts.getD 1 ""))
        ∧ (resourceRuleRead env s).2.d.attrs.lookup "rule_id" = some (.int ruleID)
        ∧ (resourceRuleRead env s).2.d.attrs.lookup "rule_action" = some (.str rule.Action)
        ∧ (rule.IsEmptyConditionException = true →
            (resourceRuleRead env s).2.d.attrs.lookup "condition_exception"
              = s.d.attrs.lookup "condition_exception")
        ∧ (rule.IsEmptyConditionException = false →
            ∃ jsonBody, env.jsonMarshal (rule.ConditionException.getD {}) = .ok jsonBody
              ∧ (resourceRuleRead env s).2.d.attrs.lookup "condition_exception"
                = some (.str jsonBody)) := by
  revert hok
  unfold resourceRuleRead
  simp only [getLatestConfigVersion_d, record_d]
  repeat' split
  all_goals simp_all [diag.FromErr, diag.Errorf, Set_eq_ok_iff, newCalls,
    getLatestConfigVersion_trace, List.lookup]
  all_goals (refine ⟨_, _, ⟨rfl, rfl⟩, ?_⟩; simp_all)

set_option maxRecDepth 100000 in
theorem read_populates_attributes_witness :
    ∃ iDParts configID ruleID version rule,
      splitID updateState.d.Id 3 ruleIDHint = .ok iDParts
        ∧ strconv.Atoi (iDParts.getD 0 "") = .ok configID
        ∧ strconv.Atoi (iDParts.getD 2 "") = .ok ruleID
        ∧ Call.GetRule ⟨configID, version, iDParts.getD 1 "", ruleID⟩ (.ok rule)
            ∈ newCalls updateState (resourceRuleRead (okEnv AseAuto) updateState).2
        ∧ (resourceRuleRead (okEnv AseAuto) updateState).2.d.attrs.lookup "config_id"
            = some (.int configID)
        ∧ (resourceRuleRead (okEnv AseAuto) updateState).2.d.attrs.lookup
            "security_policy_id" = some (.str (iDParts.getD 1 ""))
        ∧ (resourceRuleRead (okEnv AseAuto) updateState).2.d.attrs.lookup "rule_id"
            = some (.int ruleID)
        ∧ (resourceRuleRead (okEnv AseAuto) updateState).2.d.attrs.lookup "rule_action"
            = some (.str rule.Action)
        ∧ (rule.IsEmptyConditionException = true →
            (resourceRuleRead (okEnv AseAuto) updateState).2.d.attrs.lookup
                "condition_exception"
              = updateState.d.attrs.lookup "condition_exception")
        ∧ (rule.IsEmptyConditionException = false →
            ∃ jsonBody, (okEnv AseAuto).jsonMarshal (rule.ConditionException.getD {})
                = .ok jsonBody
              ∧ (resourceRuleRead (okEnv AseAuto) updateState).2.d.attrs.lookup
                  "condition_exception" = some (.str jsonBody)) :=
  read_populates_attributes (okEnv AseAuto) updateState (by decide)

/-! ## Failure of an attribute set in Read -/

/-- The answer recorded with the `GetRule` call of a Read is the answer of the
facade to the request Read built. -/
theorem GetRule_answer_of_mem (env : Env) (s : State) (iDParts : List String)
    (configID ruleID : Int) (req : GetRuleRequest) (res : Except GoError GetRuleResponse)
    (hsplit : splitID s.d.Id 3 ruleIDHint = .ok iDParts)
    (hconfig : strconv.Atoi (iDParts.getD 0 "") = .ok configID)
    (hrule : strconv.Atoi (iDParts.getD 2 "") = .ok ruleID)
    (h : Call.GetRule req res ∈ newCalls s (resourceRuleRead env s).2) :
    env.client.GetRule (getLatestConfigVersion env configID s).2.trace
        ⟨configID, (getLatestConfigVersion env configID s).1, iDParts.getD 1 "", ruleID⟩
      = res := by
  revert h
  unfold resourceRuleRead
  simp only [getLatestConfigVersion_d, record_d, hsplit, hconfig, hrule]
  repeat' split
  all_goals simp_all [newCalls, getLatestConfigVersion_trace]

/-- C18. Read fails fast on an attribute-set failure. Let `GetRule` have
succeeded and let attribute number `i` (in the order config_id,
security_policy_id, rule_id, rule_action, condition_exception) be the first
whose set operation fails, with message `msg`; for condition_exception this
means the response has a condition exception and it was serialised. Then Read
returns the single diagnostic `tools.ErrValueSet: msg`, and the attributes
afterwards are those from before with exactly the ones in front of number `i`
written on top: none from number `i` on is written. -/
theorem read_fails_fast_on_set_failure (env : Env) (s : State) (iDParts : List String)
    (configID ruleID version : Int) (rule : GetRuleResponse) (i : Nat) (msg : String)
    (hsplit : splitID s.d.Id 3 ruleIDHint = .ok iDParts)
    (hconfig : strconv.Atoi (iDParts.getD 0 "") = .ok configID)
    (hrule : strconv.Atoi (iDParts.getD 2 "") = .ok ruleID)
    (hget : Call.GetRule ⟨configID, version, iDParts.getD 1 "", ruleID⟩ (.ok rule)
      ∈ newCalls s (resourceRuleRead env s).2)
    (hi : i < ruleAttributes.length)
    (hbefore : ∀ j, j < i → s.d.setFailures.lookup (ruleAttributes.getD j "") = none)
    (hfail : s.d.setFailures.lookup (ruleAttributes.getD i "") = some msg)
    (hce : i = 4 → rule.IsEmptyConditionException = false
      ∧ ∃ jsonBody, env.jsonMarshal (rule.ConditionException.getD {}) = .ok jsonBody) :
    (resourceRuleRead env s).1 = [⟨tools.ErrValueSet ++ ": " ++ msg⟩]
      ∧ (resourceRuleRead env s).2.d.attrs
        = (([("config_id", .int configID), ("security_policy_id", .str (iDParts.getD 1 "")),
            ("rule_id", .int ruleID), ("rule_action", .str rule.Action)] :
              List (String × Value)).take i).reverse ++ s.d.attrs := by
  have hi5 : i < 5 := hi
  have hg := GetRule_answer_of_mem env s iDParts configID ruleID _ _ hsplit hconfig hrule hget
  unfold resourceRuleRead
  simp only [getLatestConfigVersion_d, record_d, hsplit, hconfig, hrule, hg]
  interval_cases i
  · have h0 : s.d.setFailures.lookup "config_id" = some msg := hfail
    simp [ResourceData.Set, h0, diag.Errorf, GoError.Error]
  · have h0 : s.d.setFailures.lookup "config_id" = none := hbefore 0 (by decide)
    have h1 : s.d.setFailures.lookup "security_policy_id" = some msg := hfail
    simp [ResourceData.Set, h0, h1, diag.Errorf, GoError.Error]
  · have h0 : s.d.setFailures.lookup "config_id" = none := hbefore 0 (by decide)
    have h1 : s.d.setFailures.lookup "security_policy_id" = none := hbefore 1 (by decide)
    have h2 : s.d.setFailures.lookup "rule_id" = some msg := hfail
    simp [ResourceData.Set, h0, h1, h2, diag.Errorf, GoError.Error]
  · have h0 : s.d.setFailures.lookup "config_id" = none := hbefore 0 (by decide)
    have h1 : s.d.setFailures.lookup "security_policy_id" = none := hbefore 1 (by decide)
    have h2 : s.d.setFailures.lookup "rule_id" = none := hbefore 2 (by decide)
    have h3 : s.d.setFailures.lookup "rule_action" = some msg := hfail
    simp [ResourceData.Set, h0, h1, h2, h3, diag.Errorf, GoError.Error]
  · have h0 : s.d.setFailures.lookup "config_id" = none := hbefore 0 (by decide)
    have h1 : s.d.setFailures.lookup "security_policy_id" = none := hbefore 1 (by decide)
    have h2 : s.d.setFailures.lookup "rule_id" = none := hbefore 2 (by decide)
    have h3 : s.d.setFailures.lookup "rule_action" = none := hbefore 3 (by decide)
    have h4 : s.d.setFailures.lookup "condition_exception" = some msg := hfail
    obtain ⟨hne, jsonBody, hjson⟩ := hce rfl
    simp [ResourceData.Set, h0, h1, h2, h3, h4, hne, hjson, diag.Errorf, GoError.Error]

set_option maxRecDepth 100000 in
theorem read_fails_fast_on_set_failure_witness :
    (resourceRuleRead (okEnv AseAuto) ⟨⟨"1:p:2", [], [("rule_id", "cannot set")]⟩, []⟩).1
        = [⟨tools.ErrValueSet ++ ": " ++ "cannot set"⟩]
      ∧ (resourceRuleRead (okEnv AseAuto)
          ⟨⟨"1:p:2", [], [("rule_id", "cannot set")]⟩, []⟩).2.d.attrs
        = [("security_policy_id", .str "p"), ("config_id", .int 1)] :=
  read_fails_fast_on_set_failure (okEnv AseAuto)
    ⟨⟨"1:p:2", [], [("rule_id", "cannot set")]⟩, []⟩ ["1", "p", "2"] 1 2 7 ⟨"alert", none⟩ 2
    "cannot set" (by decide) (by decide) (by decide) (by decide) (by decide)
    (fun j hj => by interval_cases j <;> decide) (by decide)
    (fun h => absurd h (by decide))

/-! ## Failed facade calls -/

@[simp] theorem versionCalls_filterMap_abortError (env : Env) (c : Int) (k : String)
    (s : State) : (versionCalls env c k s).filterMap Call.abortError = [] :=
  filterMap_eq_nil_of_kind _ _ _ (versionCalls_kind env c k s)
    (by intro e; cases e <;> simp [Call.isVersionCall, Call.abortError])

/-- When the `GetRule` call of a Read fails, Read returns that error. -/
theorem read_abortError (env : Env) (s : State) (err : GoError)
    (h : err ∈ (readCalls env s).filterMap Call.abortError) :
    (resourceRuleRead env s).1 = diag.FromErr err := by
  revert h
  unfold readCalls resourceRuleRead
  simp only [getLatestConfigVersion_d, record_d]
  repeat' split
  all_goals simp_all [newCalls, getLatestConfigVersion_trace, Call.abortError]

/-- In the calls of a Read nothing follows a failed `GetRule`. -/
theorem read_noCallAfterFailure (env : Env) (s : State) :
    noCallAfterFailure (readCalls env s) = true := by
  unfold readCalls resourceRuleRead
  simp only [getLatestConfigVersion_d, record_d]
  repeat' split
  all_goals simp_all [newCalls, getLatestConfigVersion_trace, Call.abortError,
    noCallAfterFailure]

/-- Calls without an aborting failure in front do not matter. -/
theorem noCallAfterFailure_append (l m : List Call)
    (h : l.filterMap Call.abortError = []) :
    noCallAfterFailure (l ++ m) = noCallAfterFailure m := by
  induction l with
  | nil => rfl
  | cons c l ih =>
    cases hc : c.abortError with
    | some err => simp [List.filterMap_cons, hc] at h
    | none =>
      simp only [List.filterMap_cons, hc] at h
      simp [noCallAfterFailure, hc, ih h]

@[simp] theorem noCallAfterFailure_versionCalls_append (env : Env) (c : Int) (k : String)
    (s : State) (m : List Call) :
    noCallAfterFailure (versionCalls env c k s ++ m) = noCallAfterFailure m :=
  noCallAfterFailure_append _ _ (versionCalls_filterMap_abortError env c k s)

@[simp] theorem noCallAfterFailure_versionCalls (env : Env) (c : Int) (k : String)
    (s : State) : noCallAfterFailure (versionCalls env c k s) = true := by
  have h := noCallAfterFailure_append _ [] (versionCalls_filterMap_abortError env c k s)
  simpa [noCallAfterFailure] using h

/-- The error of a failed `GetWAFMode`, `UpdateRule`,
`UpdateRuleConditionException` or `GetRule` call is what the callback returns. -/
theorem abortError_returned (op : Env → State → Diagnostics × State)
    (hop : op = resourceRuleCreate ∨ op = resourceRuleRead ∨ op = resourceRuleUpdate
      ∨ op = resourceRuleDelete)
    (env : Env) (s : State) (err : GoError)
    (herr : err ∈ (newCalls s (op env s).2).filterMap Call.abortError) :
    (op env s).1 = diag.FromErr err := by
  rcases hop with rfl | rfl | rfl | rfl
  · revert herr
    unfold resourceRuleCreate
    simp only [getModifiableConfigVersion_d, record_d]
    repeat' split
    all_goals simp_all [newCalls, Call.abortError]
    all_goals exact fun x hx hm =>
      read_abortError env _ err (List.mem_filterMap.mpr ⟨x, hx, hm⟩)
  · exact read_abortError env s err herr
  · revert herr
    unfold resourceRuleUpdate
    simp only [getModifiableConfigVersion_d, record_d]
    repeat' split
    all_goals simp_all [newCalls, Call.abortError]
    all_goals exact fun x hx hm =>
      read_abortError env _ err (List.mem_filterMap.mpr ⟨x, hx, hm⟩)
  · revert herr
    unfold resourceRuleDelete
    simp only [getModifiableConfigVersion_d, record_d]
    repeat' split
    all_goals simp_all [newCalls, Call.abortError]

set_option maxRecDepth 100000 in
/-- C15, as stated, fails. `GetWAFMode` fails inside Delete with the error
whose message is `boom`: the diagnostic returned has exactly that message, so
no non-empty prefix naming the operation stands in front of it. -/
theorem facade_error_returned_without_prefix :
    Call.GetWAFMode ⟨1, 7, "p"⟩ (.error (.remote "boom"))
        ∈ newCalls updateState
          (resourceRuleDelete { okEnv AseAuto with client := modeFailingClient } updateState).2
      ∧ (GoError.remote "boom").Error = "boom"
      ∧ (resourceRuleDelete { okEnv AseAuto with client := modeFailingClient } updateState).1
        = [⟨"boom"⟩]
      ∧ ¬ ∃ pre : String, pre ≠ "" ∧ (⟨"boom"⟩ : Diagnostic).Summary = pre ++ "boom" := by
  refine ⟨by decide, by decide, by decide, ?_⟩
  rintro ⟨pre, hne, h⟩
  have hlen := congrArg String.length h
  rw [String.length_append] at hlen
  have h4 : ("boom" : String).length = 4 := by decide
  rw [h4] at hlen
  have h0 : pre.length = 0 := by omega
  apply hne
  cases pre with
  | mk data =>
    have hd : data = [] := List.length_eq_zero.mp h0
    subst hd
    rfl

/-- C15, amended. When a `GetWAFMode`, `UpdateRule`,
`UpdateRuleConditionException` or `GetRule` call fails inside Create, Read,
Update or Delete, the callback returns `diag.FromErr` of the facade error: a
single diagnostic whose summary is the message of the facade error verbatim,
without any prefix. -/
theorem facade_error_returned_verbatim (op : Env → State → Diagnostics × State)
    (hop : op = resourceRuleCreate ∨ op = resourceRuleRead ∨ op = resourceRuleUpdate
      ∨ op = resourceRuleDelete)
    (env : Env) (s : State) (err : GoError)
    (herr : err ∈ (newCalls s (op env s).2).filterMap Call.abortError) :
    (op env s).1 = [⟨err.Error⟩] := by
  rw [abortError_returned op hop env s err herr]
  rfl

set_option maxRecDepth 100000 in
theorem facade_error_returned_verbatim_witness :
    (resourceRuleCreate { okEnv "ASE_MANUAL" with client := readFailingClient } createState).1
      = [⟨(GoError.remote "rule not readable").Error⟩] :=
  facade_error_returned_verbatim resourceRuleCreate (Or.inl rfl)
    { okEnv "ASE_MANUAL" with client := readFailingClient } createState
    (.remote "rule not readable") (by decide)

/-- C16. A single failed remote call aborts the whole operation. In every run
of Create, Read, Update or Delete, no facade call follows a failed
`GetWAFMode`, `UpdateRule`, `UpdateRuleConditionException` or `GetRule` call
(so the failed call is not retried, no update follows a failed `GetWAFMode`
and no `GetRule` follows a failed update), and a run with such a failed call
returns an error. -/
theorem failed_call_is_last (op : Env → State → Diagnostics × State)
    (hop : op = resourceRuleCreate ∨ op = resourceRuleRead ∨ op = resourceRuleUpdate
      ∨ op = resourceRuleDelete)
    (env : Env) (s : State) :
    noCallAfterFailure (newCalls s (op env s).2) = true
      ∧ ((newCalls s (op env s).2).filterMap Call.abortError ≠ [] →
          (op env s).1.HasError = true) := by
  constructor
  · rcases hop with rfl | rfl | rfl | rfl
    · unfold resourceRuleCreate
      simp only [getModifiableConfigVersion_d, record_d]
      repeat' split
      all_goals simp_all [newCalls, Call.abortError, noCallAfterFailure,
        read_noCallAfterFailure]
    · exact read_noCallAfterFailure env s
    · unfold resourceRuleUpdate
      simp only [getModifiableConfigVersion_d, record_d]
      repeat' split
      all_goals simp_all [newCalls, Call.abortError, noCallAfterFailure,
        read_noCallAfterFailure]
    · unfold resourceRuleDelete
      simp only [getModifiableConfigVersion_d, record_d]
      repeat' split
      all_goals simp_all [newCalls, Call.abortError, noCallAfterFailure]
  · intro hne
    obtain ⟨err, herr⟩ := List.exists_mem_of_ne_nil _ hne
    rw [abortError_returned op hop env s err herr]
    rfl

set_option maxRecDepth 100000 in
theorem failed_call_is_last_witness :
    (newCalls createState
        (resourceRuleCreate { okEnv "ASE_MANUAL" with client := readFailingClient }
          createState).2).filterMap Call.abortError = [.remote "rule not readable"]
      ∧ noCallAfterFailure (newCalls createState
        (resourceRuleCreate { okEnv "ASE_MANUAL" with client := readFailingClient }
          createState).2) = true :=
  ⟨by decide,
    (failed_call_is_last resourceRuleCreate (Or.inl rfl)
      { okEnv "ASE_MANUAL" with client := readFailingClient } createState).1⟩

/-! ## The not-found sentinel on optional lookups -/

theorem GetStringValue_zero_of_error (key : String) (d : ResourceData) (err : GoError)
    (h : (tools.GetStringValue key d).2 = some err) : (tools.GetStringValue key d).1 = "" := by
  unfold tools.GetStringValue at h ⊢
  split <;> simp_all

theorem GetIntValue_zero_of_error (key : String) (d : ResourceData) (err : GoError)
    (h : (tools.GetIntValue key d).2 = some err) : (tools.GetIntValue key d).1 = 0 := by
  unfold tools.GetIntValue at h ⊢
  split <;> simp_all

@[simp] theorem UpdateRule_not_mem_versionCalls (env : Env) (c : Int) (k : String) (s : State)
    (req : UpdateRuleRequest) (res : Except GoError UpdateRuleResponse) :
    Call.UpdateRule req res ∉ versionCalls env c k s := by
  intro h
  simpa [Call.isVersionCall] using versionCalls_kind env c k s _ h

@[simp] theorem UpdateRule_not_mem_readCalls (env : Env) (s : State)
    (req : UpdateRuleRequest) (res : Except GoError UpdateRuleResponse) :
    Call.UpdateRule req res ∉ readCalls env s := by
  intro h
  simpa [Call.isReadCall] using readCalls_kind env s _ h

@[simp] theorem UpdateRuleConditionException_not_mem_versionCalls (env : Env) (c : Int)
    (k : String) (s : State) (req : UpdateConditionExceptionRequest)
    (res : Except GoError UpdateConditionExceptionResponse) :
    Call.UpdateRuleConditionException req res ∉ versionCalls env c k s := by
  intro h
  simpa [Call.isVersionCall] using versionCalls_kind env c k s _ h

@[simp] theorem UpdateRuleConditionException_not_mem_readCalls (env : Env) (s : State)
    (req : UpdateConditionExceptionRequest)
    (res : Except GoError UpdateConditionExceptionResponse) :
    Call.UpdateRuleConditionException req res ∉ readCalls env s := by
  intro h
  simpa [Call.isReadCall] using readCalls_kind env s _ h

/-- Create at the lookup of condition_exception. -/
theorem create_condition_exception_lookup (env : Env) (s : State)
    (configID : Int) (policyID : String) (ruleID : Int) (err : GoError)
    (hconfig : tools.GetIntValue "config_id" s.d = (configID, none))
    (hpolicy : tools.GetStringValue "security_policy_id" s.d = (policyID, none))
    (hrule : tools.GetIntValue "rule_id" s.d = (ruleID, none))
    (herr : (tools.GetStringValue "condition_exception" s.d).2 = some err) :
    (err.isNotFound = false →
        resourceRuleCreate env s
          = (diag.FromErr err, (getModifiableConfigVersion env configID "rule" s).2))
      ∧ (err.isNotFound = true →
        (∃ res, Call.GetWAFMode
            ⟨configID, (getModifiableConfigVersion env configID "rule" s).1, policyID⟩ res
            ∈ newCalls s (resourceRuleCreate env s).2)
          ∧ (∀ req res, Call.UpdateRule req res ∈ newCalls s (resourceRuleCreate env s).2 →
              req.JsonPayloadRaw = "")
          ∧ (∀ req res, Call.UpdateRuleConditionException req res
                ∈ newCalls s (resourceRuleCreate env s).2 →
              req.Conditions = none ∧ req.Exception = none
                ∧ req.AdvancedExceptionsList = none)) := by
  have hzero := GetStringValue_zero_of_error _ _ _ herr
  constructor
  · intro hnf
    unfold resourceRuleCreate
    simp only [getModifiableConfigVersion_d, record_d, hconfig, hpolicy, hrule, herr,
      Option.filter, hnf, Bool.not_false, if_true]
  · intro hnf
    unfold resourceRuleCreate
    simp only [getModifiableConfigVersion_d, record_d, hconfig, hpolicy, hrule, herr,
      Option.filter, hnf, Bool.not_true, hzero]
    repeat' split
    all_goals simp_all [newCalls]
    all_goals (subst_vars; exact ⟨rfl, rfl, rfl⟩)

/-- Update at the lookup of condition_exception. -/
theorem update_condition_exception_lookup (env : Env) (s : State)
    (iDParts : List String) (configID ruleID : Int) (err : GoError)
    (hsplit : splitID s.d.Id 3 ruleIDHint = .ok iDParts)
    (hconfig : strconv.Atoi (iDParts.getD 0 "") = .ok configID)
    (hrule : strconv.Atoi (iDParts.getD 2 "") = .ok ruleID)
    (herr : (tools.GetStringValue "condition_exception" s.d).2 = some err) :
    (err.isNotFound = false →
        resourceRuleUpdate env s
          = (diag.FromErr err, (getModifiableConfigVersion env configID "rule" s).2))
      ∧ (err.isNotFound = true →
        (∃ res, Call.GetWAFMode
            ⟨configID, (getModifiableConfigVersion env configID "rule" s).1,
              iDParts.getD 1 ""⟩ res
            ∈ newCalls s (resourceRuleUpdate env s).2)
          ∧ (∀ req res, Call.UpdateRule req res ∈ newCalls s (resourceRuleUpdate env s).2 →
              req.JsonPayloadRaw = "")
          ∧ (∀ req res, Call.UpdateRuleConditionException req res
                ∈ newCalls s (resourceRuleUpdate env s).2 →
              req.Conditions = none ∧ req.Exception = none
                ∧ req.AdvancedExceptionsList = none)) := by
  have hzero := GetStringValue_zero_of_error _ _ _ herr
  constructor
  · intro hnf
    unfold resourceRuleUpdate
    simp only [getModifiableConfigVersion_d, record_d, hsplit, hconfig, hrule, herr,
      Option.filter, hnf, Bool.not_false, if_true]
  · intro hnf
    unfold resourceRuleUpdate
    simp only [getModifiableConfigVersion_d, record_d, hsplit, hconfig, hrule, herr,
      Option.filter, hnf, Bool.not_true, hzero]
    repeat' split
    all_goals simp_all [newCalls]
    all_goals (subst_vars; exact ⟨rfl, rfl, rfl⟩)

/-- The data source at the lookup of custom_rule_id. -/
theorem dataSource_custom_rule_id_lookup (env : Env)
    (RenderTemplates : String → GetCustomRuleActionsResponse → Except GoError String)
    (s : State) (configID : Int) (configuration : GetConfigurationResponse)
    (policyID : String) (err : GoError)
    (hconfig : tools.GetIntValue "config_id" s.d = (configID, none))
    (hversion : env.client.GetConfiguration s.trace ⟨configID⟩ = .ok configuration)
    (hpolicy : tools.GetStringValue "security_policy_id" s.d = (policyID, none))
    (herr : (tools.GetIntValue "custom_rule_id" s.d).2 = some err) :
    (err.isNotFound = false →
        dataSourceCustomRuleActionsRead env RenderTemplates s
          = (diag.FromErr err,
              s.record (.GetConfiguration ⟨configID⟩ (.ok configuration))))
      ∧ (err.isNotFound = true →
        ∃ res, Call.GetCustomRuleActions
            ⟨configID, configuration.LatestVersion, policyID, 0⟩ res
            ∈ newCalls s (dataSourceCustomRuleActionsRead env RenderTemplates s).2) := by
  have hzero := GetIntValue_zero_of_error _ _ _ herr
  constructor
  · intro hnf
    unfold dataSourceCustomRuleActionsRead
    simp only [getLatestConfigVersionWithError, hversion, record_d, hconfig, hpolicy, herr,
      Option.filter, hnf, Bool.not_false, if_true]
  · intro hnf
    unfold dataSourceCustomRuleActionsRead
    simp only [getLatestConfigVersionWithError, hversion, record_d, hconfig, hpolicy, herr,
      Option.filter, hnf, Bool.not_true, hzero]
    repeat' split
    all_goals simp_all [newCalls]

/-- C17. The not-found sentinel on an optional lookup is absence, not failure.
Once the steps in front of the lookup have succeeded, an error of the lookup
of condition_exception in Create and Update, or of custom_rule_id in the data
source, has one of two effects. If it is not `tools.ErrNotFound`, the
operation returns that error and the state is the one the version resolver
left: no facade call follows. If it is `tools.ErrNotFound`, the operation goes
on with the zero value: Create and Update issue `GetWAFMode`, and every update
request of the run carries an empty payload, respectively nil Conditions,
Exception and AdvancedExceptionsList; the data source issues
`GetCustomRuleActions` with RuleID 0. -/
theorem not_found_is_absence (env : Env)
    (RenderTemplates : String → GetCustomRuleActionsResponse → Except GoError String)
    (s : State) :
    (∀ configID policyID ruleID err,
        tools.GetIntValue "config_id" s.d = (configID, none) →
        tools.GetStringValue "security_policy_id" s.d = (policyID, none) →
        tools.GetIntValue "rule_id" s.d = (ruleID, none) →
        (tools.GetStringValue "condition_exception" s.d).2 = some err →
        (err.isNotFound = false →
            resourceRuleCreate env s
              = (diag.FromErr err, (getModifiableConfigVersion env configID "rule" s).2))
          ∧ (err.isNotFound = true →
            (∃ res, Call.GetWAFMode
                ⟨configID, (getModifiableConfigVersion env configID "rule" s).1, policyID⟩ res
                ∈ newCalls s (resourceRuleCreate env s).2)
              ∧ (∀ req res, Call.UpdateRule req res
                    ∈ newCalls s (resourceRuleCreate env s).2 →
                  req.JsonPayloadRaw = "")
              ∧ (∀ req res, Call.UpdateRuleConditionException req res
                    ∈ newCalls s (resourceRuleCreate env s).2 →
                  req.Conditions = none ∧ req.Exception = none
                    ∧ req.AdvancedExceptionsList = none)))
      ∧ (∀ iDParts configID ruleID err,
        splitID s.d.Id 3 ruleIDHint = .ok iDParts →
        strconv.Atoi (iDParts.getD 0 "") = .ok configID →
        strconv.Atoi (iDParts.getD 2 "") = .ok ruleID →
        (tools.GetStringValue "condition_exception" s.d).2 = some err →
        (err.isNotFound = false →
            resourceRuleUpdate env s
              = (diag.FromErr err, (getModifiableConfigVersion env configID "rule" s).2))
          ∧ (err.isNotFound = true →
            (∃ res, Call.GetWAFMode
                ⟨configID, (getModifiableConfigVersion env configID "rule" s).1,
                  iDParts.getD 1 ""⟩ res
                ∈ newCalls s (resourceRuleUpdate env s).2)
              ∧ (∀ req res, Call.UpdateRule req res
                    ∈ newCalls s (resourceRuleUpdate env s).2 →
                  req.JsonPayloadRaw = "")
              ∧ (∀ req res, Call.UpdateRuleConditionException req res
                    ∈ newCalls s (resourceRuleUpdate env s).2 →
                  req.Conditions = none ∧ req.Exception = none
                    ∧ req.AdvancedExceptionsList = none)))
      ∧ (∀ configID configuration policyID err,
        tools.GetIntValue "config_id" s.d = (configID, none) →
        env.client.GetConfiguration s.trace ⟨configID⟩ = .ok configuration →
        tools.GetStringValue "security_policy_id" s.d = (policyID, none) →
        (tools.GetIntValue "custom_rule_id" s.d).2 = some err →
        (err.isNotFound = false →
            dataSourceCustomRuleActionsRead env RenderTemplates s
              = (diag.FromErr err,
                  s.record (.GetConfiguration ⟨configID⟩ (.ok configuration))))
          ∧ (err.isNotFound = true →
            ∃ res, Call.GetCustomRuleActions
                ⟨configID, configuration.LatestVersion, policyID, 0⟩ res
                ∈ newCalls s (dataSourceCustomRuleActionsRead env RenderTemplates s).2)) :=
  ⟨fun configID policyID ruleID err h1 h2 h3 h4 =>
      create_condition_exception_lookup env s configID policyID ruleID err h1 h2 h3 h4,
    fun iDParts configID ruleID err h1 h2 h3 h4 =>
      update_condition_exception_lookup env s iDParts configID ruleID err h1 h2 h3 h4,
    fun configID configuration policyID err h1 h2 h3 h4 =>
      dataSource_custom_rule_id_lookup env RenderTemplates s configID configuration policyID
        err h1 h2 h3 h4⟩

set_option maxRecDepth 100000 in
theorem not_found_is_absence_witness :
    (∃ res, Call.GetCustomRuleActions ⟨43253, 7, "test_policy", 0⟩ res
        ∈ newCalls dataSourceState
          (dataSourceCustomRuleActionsRead (okEnv AseAuto) rawRenderer dataSourceState).2)
      ∧ resourceRuleUpdate (okEnv AseAuto)
          ⟨⟨"1:p:2", [("condition_exception", .int 5)], []⟩, []⟩
        = (diag.FromErr (.invalidType "condition_exception" "string"),
            (getModifiableConfigVersion (okEnv AseAuto) 1 "rule"
              ⟨⟨"1:p:2", [("condition_exception", .int 5)], []⟩, []⟩).2) :=
  ⟨((not_found_is_absence (okEnv AseAuto) rawRenderer dataSourceState).2.2 43253
      ⟨7, some 7⟩ "test_policy" (.notFound "custom_rule_id") (by decide) (by decide)
      (by decide) (by decide)).2 (by decide),
    ((not_found_is_absence (okEnv AseAuto) rawRenderer
      ⟨⟨"1:p:2", [("condition_exception", .int 5)], []⟩, []⟩).2.1 ["1", "p", "2"] 1 2
      (.invalidType "condition_exception" "string") (by decide) (by decide) (by decide)
      (by decide)).1 (by decide)⟩

/-! ## A separator inside the policy identifier -/

/-- Splitting yields one more part than there are separators. -/
theorem SplitColon_length (l : List Char) :
    (strings.SplitColon l).length = l.count ':' + 1 := by
  induction l with
  | nil => rfl
  | cons c cs ih =>
    unfold strings.SplitColon
    by_cases hc : c = ':'
    · subst hc
      simp [ih]
    · simp only [hc, if_false]
      have hcount : (c :: cs).count ':' = cs.count ':' := by
        rw [List.count_cons]
        simp [hc]
      rw [hcount, ← ih]
      cases h : strings.SplitColon cs with
      | nil => simp [h] at ih
      | cons p ps => simp

/-- An identifier built around a policy identifier with a separator has more
than 3 parts. -/
theorem Sprintf_parts_of_colon (configID : Int) (policyID : String) (ruleID : Int)
    (hcolon : ':' ∈ policyID.toList) :
    (strings.SplitColon (fmt.Sprintf_d_s_d configID policyID ruleID).toList).length ≠ 3 := by
  have hpos : 0 < policyID.toList.count ':' := List.count_pos_iff.mpr hcolon
  rw [SplitColon_length]
  simp only [fmt.Sprintf_d_s_d, String.toList, List.count_append, List.count_cons] at hpos ⊢
  simp only [beq_self_eq_true, if_true]
  omega

/-- Read, Update and Delete on an identifier that does not split into 3 parts. -/
theorem malformed_id_results (env : Env) (s : State)
    (h : (strings.SplitColon s.d.id.toList).length ≠ 3) :
    resourceRuleRead env s = (diag.FromErr (.invalidIDFormat s.d.id ruleIDHint), s)
      ∧ resourceRuleUpdate env s = (diag.FromErr (.invalidIDFormat s.d.id ruleIDHint), s)
      ∧ resourceRuleDelete env s = (diag.FromErr (.invalidIDFormat s.d.id ruleIDHint), s) := by
  have hsplit : splitID s.d.Id 3 ruleIDHint = .error (.invalidIDFormat s.d.id ruleIDHint) := by
    simp only [String.toList] at h
    simp [splitID, ResourceData.Id, h]
  refine ⟨?_, ?_, ?_⟩
  · unfold resourceRuleRead
    rw [hsplit]
  · unfold resourceRuleUpdate
    rw [hsplit]
  · unfold resourceRuleDelete
    rw [hsplit]

/-- C19. The composite-ID encoding is ambiguous when the policy identifier
contains the separator. In every run of Create with such a policy identifier
(for example `a:b`) whose update call succeeds, the identifier is set to the
encoding of the three parts, splitting it with arity 3 fails, the Read that
Create delegates to makes Create return the invalid-ID-format error, and every
later Read, Update and Delete on that identifier returns the same error
without touching the state. -/
theorem colon_in_policy_breaks_decoding (env : Env) (s : State)
    (configID : Int) (policyID : String) (ruleID : Int)
    (hconfig : tools.GetIntValue "config_id" s.d = (configID, none))
    (hpolicy : tools.GetStringValue "security_policy_id" s.d = (policyID, none))
    (hrule : tools.GetIntValue "rule_id" s.d = (ruleID, none))
    (hcolon : ':' ∈ policyID.toList)
    (hupdate : (newCalls s (resourceRuleCreate env s).2).any Call.isSuccessfulUpdate = true) :
    (resourceRuleCreate env s).2.d.id = fmt.Sprintf_d_s_d configID policyID ruleID
      ∧ (∃ err, splitID (fmt.Sprintf_d_s_d configID policyID ruleID) 3 ruleIDHint
          = .error err)
      ∧ (resourceRuleCreate env s).1
        = diag.FromErr (.invalidIDFormat (fmt.Sprintf_d_s_d configID policyID ruleID)
            "configID:securityPolicyID:ruleID")
      ∧ ∀ (env1 : Env) (s1 : State),
          s1.d.id = fmt.Sprintf_d_s_d configID policyID ruleID →
          resourceRuleRead env1 s1
              = (diag.FromErr (.invalidIDFormat s1.d.id "configID:securityPolicyID:ruleID"),
                  s1)
            ∧ resourceRuleUpdate env1 s1
              = (diag.FromErr (.invalidIDFormat s1.d.id "configID:securityPolicyID:ruleID"),
                  s1)
            ∧ resourceRuleDelete env1 s1
              = (diag.FromErr (.invalidIDFormat s1.d.id "configID:securityPolicyID:ruleID"),
                  s1) := by
  have hparts := Sprintf_parts_of_colon configID policyID ruleID hcolon
  have hread : ∀ (env1 : Env) (s1 : State),
      s1.d.id = fmt.Sprintf_d_s_d configID policyID ruleID →
      resourceRuleRead env1 s1
          = (diag.FromErr (.invalidIDFormat (fmt.Sprintf_d_s_d configID policyID ruleID)
              ruleIDHint), s1) := by
    intro env1 s1 hid
    have h := (malformed_id_results env1 s1 (by rw [hid]; exact hparts)).1
    rw [hid] at h
    exact h
  refine ⟨?_, ?_, ?_, ?_⟩
  · revert hupdate
    unfold resourceRuleCreate
    simp only [getModifiableConfigVersion_d, record_d, hconfig, hpolicy, hrule]
    repeat' split
    all_goals simp_all [newCalls, Call.isSuccessfulUpdate, resourceRuleRead_id,
      ResourceData.SetId]
  · refine ⟨.invalidIDFormat (fmt.Sprintf_d_s_d configID policyID ruleID) ruleIDHint, ?_⟩
    simp only [String.toList] at hparts
    simp [splitID, hparts]
  · revert hupdate
    unfold resourceRuleCreate
    simp only [getModifiableConfigVersion_d, record_d, hconfig, hpolicy, hrule]
    repeat' split
    all_goals simp_all [newCalls, Call.isSuccessfulUpdate, ResourceData.SetId]
    all_goals rfl
  · intro env1 s1 hid
    exact malformed_id_results env1 s1 (by rw [hid]; exact hparts)

set_option maxRecDepth 100000 in
theorem colon_in_policy_breaks_decoding_witness :
    fmt.Sprintf_d_s_d 43253 "a:b" 12345 = "43253:a:b:12345"
      ∧ (resourceRuleCreate (okEnv "ASE_MANUAL") colonPolicyState).2.d.id
        = fmt.Sprintf_d_s_d 43253 "a:b" 12345
      ∧ (resourceRuleCreate (okEnv "ASE_MANUAL") colonPolicyState).1
        = diag.FromErr (.invalidIDFormat (fmt.Sprintf_d_s_d 43253 "a:b" 12345)
            "configID:securityPolicyID:ruleID") :=
  ⟨by decide,
    (colon_in_policy_breaks_decoding (okEnv "ASE_MANUAL") colonPolicyState 43253 "a:b" 12345
      (by decide) (by decide) (by decide) (by decide) (by decide)).1,
    (colon_in_policy_breaks_decoding (okEnv "ASE_MANUAL") colonPolicyState 43253 "a:b" 12345
      (by decide) (by decide) (by decide) (by decide) (by decide)).2.2.1⟩

/-! ## `tools.SetToStringSlice` -/

theorem take_succ_set (list : List String) (i : Nat) (a : String) (h : i < list.length) :
    (list.set i a).take (i + 1) = list.take i ++ [a] := by
  induction list generalizing i with
  | nil => simp at h
  | cons x xs ih =>
    cases i with
    | zero => simp
    | succ i =>
      have h1 : i < xs.length := by simpa using h
      simp [ih i h1]

/-- The loop over strings writes them, in order, from index `i` on. -/
theorem SetToStringSliceLoop_strings (strs : List String) (i : Nat) (list : List String)
    (hlen : list.length = i + strs.length) :
    SetToStringSliceLoop (strs.map Iface.str) i list = some (list.take i ++ strs) := by
  induction strs generalizing i list with
  | nil =>
    have : list.take i = list := List.take_of_length_le (by simp at hlen; omega)
    simp [SetToStringSliceLoop, this]
  | cons a strs ih =>
    have hi : i < list.length := by simp at hlen; omega
    have hlen1 : (list.set i a).length = (i + 1) + strs.length := by
      simp at hlen ⊢; omega
    simp only [List.map_cons, SetToStringSliceLoop, Iface.assertString, hi, if_true]
    rw [ih (i + 1) (list.set i a) hlen1, take_succ_set list i a hi]
    simp

/-- A list of interface values that are all strings is the image of a list of
strings. -/
theorem exists_strings (items : List Iface) (h : ∀ v ∈ items, ∃ str, v = Iface.str str) :
    ∃ strs : List String, items = strs.map Iface.str := by
  induction items with
  | nil => exact ⟨[], rfl⟩
  | cons v vs ih =>
    obtain ⟨str, rfl⟩ := h v (List.mem_cons_self _ _)
    obtain ⟨strs, hstrs⟩ := ih (fun w hw => h w (List.mem_cons_of_mem _ hw))
    exact ⟨str :: strs, by simp [hstrs]⟩

/-- C20. For every set whose elements are all strings, `SetToStringSlice`
returns (the type assertion does not panic and no index is out of range) a
slice of length `s.Len()` whose element at every index is the string at that
index of `s.List()`; so it holds the elements of the set, each exactly once,
and nothing else. -/
theorem SetToStringSlice_spec (s : schema.Set)
    (h : ∀ v ∈ s.List, ∃ str, v = Iface.str str) :
    ∃ list, tools.SetToStringSlice s = some list
      ∧ list.length = s.Len
      ∧ (∀ i : Nat, (list[i]?).map Iface.str = (schema.Set.List s)[i]?)
      ∧ list.map Iface.str = s.List
      ∧ (∀ str, str ∈ list ↔ Iface.str str ∈ s.List)
      ∧ ∀ str ∈ list, list.count str = 1 := by
  obtain ⟨strs, hstrs⟩ := exists_strings s.items h
  have hnodup : strs.Nodup := by
    have := s.nodup
    rw [hstrs] at this
    exact List.Nodup.of_map _ this
  refine ⟨strs, ?_, ?_, ?_, ?_, ?_, ?_⟩
  · unfold tools.SetToStringSlice schema.Set.List schema.Set.Len
    rw [hstrs, SetToStringSliceLoop_strings strs 0 _ (by simp)]
    simp
  · simp [schema.Set.Len, hstrs]
  · intro i
    simp [schema.Set.List, hstrs]
  · simp [schema.Set.List, hstrs]
  · intro str
    simp only [schema.Set.List, hstrs, List.mem_map]
    constructor
    · intro hmem
      exact ⟨str, hmem, rfl⟩
    · rintro ⟨x, hx, hxe⟩
      cases hxe
      exact hx
  · intro str hmem
    exact List.count_eq_one_of_mem hnodup hmem

theorem SetToStringSlice_spec_witness :
    ∃ list, tools.SetToStringSlice ⟨[.str "cgi", .str "asp", .str "php"], by decide⟩
        = some list
      ∧ list.length = (schema.Set.mk [.str "cgi", .str "asp", .str "php"] (by decide)).Len
      ∧ (∀ i : Nat, (list[i]?).map Iface.str
          = (schema.Set.List
              (schema.Set.mk [.str "cgi", .str "asp", .str "php"] (by decide)))[i]?)
      ∧ list.map Iface.str
          = (schema.Set.mk [.str "cgi", .str "asp", .str "php"] (by decide)).List
      ∧ (∀ str, str ∈ list
          ↔ Iface.str str ∈ (schema.Set.mk [.str "cgi", .str "asp", .str "php"] (by decide)).List)
      ∧ ∀ str ∈ list, list.count str = 1 :=
  SetToStringSlice_spec ⟨[.str "cgi", .str "asp", .str "php"], by decide⟩
    (fun v hv => by
      simp only [schema.Set.List, List.mem_cons, List.mem_singleton, List.not_mem_nil,
        or_false] at hv
      rcases hv with rfl | rfl | rfl
      · exact ⟨"cgi", rfl⟩
      · exact ⟨"asp", rfl⟩
      · exact ⟨"php", rfl⟩)

/-! ## The request and the identifier of the data source -/

/-- The two-result resolver leaves the resource data alone. -/
@[simp] theorem getLatestConfigVersionWithError_d (env : Env) (c : Int) (s : State) :
    (getLatestConfigVersionWithError env c s).2.d = s.d := by
  unfold getLatestConfigVersionWithError
  simp only
  split <;> rfl

theorem getLatestConfigVersionWithError_trace (env : Env) (c : Int) (s : State) :
    (getLatestConfigVersionWithError env c s).2.trace
      = s.trace ++ [.GetConfiguration ⟨c⟩ (env.client.GetConfiguration s.trace ⟨c⟩)] := by
  unfold getLatestConfigVersionWithError
  simp only
  split <;> rfl

/-- A resolution without error comes from an answered configuration query. -/
theorem getLatestConfigVersionWithError_ok (env : Env) (c : Int) (s : State) (version : Int)
    (h : (getLatestConfigVersionWithError env c s).1 = (version, none)) :
    ∃ configuration, env.client.GetConfiguration s.trace ⟨c⟩ = .ok configuration := by
  unfold getLatestConfigVersionWithError at h
  simp only at h
  split at h
  · simp at h
  · rename_i configuration hcfg
    exact ⟨configuration, hcfg⟩

/-- C21. In every successful run of the data source read, the config_id
attribute is present with a value `c`, the calls of the run are the
configuration query of the version resolver followed by one
`GetCustomRuleActions` call whose request carries ConfigID `c`, the Version
`getLatestConfigVersion` returned for `c`, the security_policy_id attribute as
PolicyID and the custom_rule_id attribute as RuleID (0 when its lookup reports
it absent), and the identifier is set to `strconv.Itoa c`. In every run that
returns an error the resource data, the identifier included, are untouched. -/
theorem dataSource_request_and_identifier (env : Env)
    (RenderTemplates : String → GetCustomRuleActionsResponse → Except GoError String)
    (s : State) :
    ((dataSourceCustomRuleActionsRead env RenderTemplates s).1 = [] →
        (tools.GetIntValue "config_id" s.d).2 = none
          ∧ (∃ configuration resp,
              newCalls s (dataSourceCustomRuleActionsRead env RenderTemplates s).2
                = [.GetConfiguration ⟨(tools.GetIntValue "config_id" s.d).1⟩
                      (.ok configuration),
                    .GetCustomRuleActions
                      { ConfigID := (tools.GetIntValue "config_id" s.d).1,
                        Version := (getLatestConfigVersionWithError env
                          (tools.GetIntValue "config_id" s.d).1 s).1.1,
                        PolicyID := (tools.GetStringValue "security_policy_id" s.d).1,
                        RuleID := (tools.GetIntValue "custom_rule_id" s.d).1 }
                      (.ok resp)])
          ∧ ((tools.GetIntValue "custom_rule_id" s.d).2 ≠ none →
              (tools.GetIntValue "custom_rule_id" s.d).1 = 0)
          ∧ (dataSourceCustomRuleActionsRead env RenderTemplates s).2.d.id
              = strconv.Itoa (tools.GetIntValue "config_id" s.d).1)
      ∧ ((dataSourceCustomRuleActionsRead env RenderTemplates s).1 ≠ [] →
          (dataSourceCustomRuleActionsRead env RenderTemplates s).2.d = s.d) := by
  have hzero : (tools.GetIntValue "custom_rule_id" s.d).2 ≠ none →
      (tools.GetIntValue "custom_rule_id" s.d).1 = 0 := by
    intro h
    cases herr : (tools.GetIntValue "custom_rule_id" s.d).2 with
    | none => exact absurd herr h
    | some err => exact GetIntValue_zero_of_error _ _ err herr
  unfold dataSourceCustomRuleActionsRead
  simp only [getLatestConfigVersionWithError_d, record_d]
  repeat' split
  all_goals simp_all [newCalls, getLatestConfigVersionWithError_trace, diag.FromErr,
    diag.Errorf, Set_eq_ok_iff, ResourceData.SetId]
  all_goals exact getLatestConfigVersionWithError_ok env _ s _ (by assumption)

set_option maxRecDepth 100000 in
theorem dataSource_request_and_identifier_witness :
    strconv.Itoa 43253 = "43253"
      ∧ (tools.GetIntValue "config_id" dataSourceState.d).2 = none
      ∧ (∃ configuration resp,
          newCalls dataSourceState
              (dataSourceCustomRuleActionsRead (okEnv AseAuto) rawRenderer dataSourceState).2
            = [.GetConfiguration ⟨(tools.GetIntValue "config_id" dataSourceState.d).1⟩
                  (.ok configuration),
                .GetCustomRuleActions
                  { ConfigID := (tools.GetIntValue "config_id" dataSourceState.d).1,
                    Version := (getLatestConfigVersionWithError (okEnv AseAuto)
                      (tools.GetIntValue "config_id" dataSourceState.d).1 dataSourceState).1.1,
                    PolicyID := (tools.GetStringValue "security_policy_id" dataSourceState.d).1,
                    RuleID := (tools.GetIntValue "custom_rule_id" dataSourceState.d).1 }
                  (.ok resp)])
      ∧ ((tools.GetIntValue "custom_rule_id" dataSourceState.d).2 ≠ none →
          (tools.GetIntValue "custom_rule_id" dataSourceState.d).1 = 0)
      ∧ (dataSourceCustomRuleActionsRead (okEnv AseAuto) rawRenderer dataSourceState).2.d.id
          = strconv.Itoa (tools.GetIntValue "config_id" dataSourceState.d).1 :=
  ⟨by decide,
    (dataSource_request_and_identifier (okEnv AseAuto) rawRenderer dataSourceState).1
      (by decide)⟩

end Akamai
